import Mathlib

/-!
# stirr-for-channels: cache refresh, renderers and timestamp codec

A shallow embedding of `main.go` and `structs.go`.

Conventions of the embedding.

* A Go `string` is a Lean `String`; byte-level library routines (`strings.Trim`,
  `strings.ReplaceAll`, `strings.Join`, `time.Parse`, `Time.Format`) work on its character
  list.  Every byte those routines inspect here is ASCII, where bytes and characters agree.
* A Go `error` value is a `String`; `Option Err` is the Go `error` interface (`none` is `nil`).
* A Go function returning `(v, err)` returns a Lean pair: Go returns both components in all
  cases, and the callers decide what to do with the value when `err` is not `nil`.
* The remote service is an explicit parameter (`Remote`): it holds, for every request a refresh
  can make, what `makeRequest` leaves in its output argument and the error it returns.
* Indexing a slice out of range panics in Go; functions that index return an `Outcome`.
-/

namespace Stirr

/-- Go `error` values. -/
abbrev Err := String

/-! ## Time values (`time.Time`) -/

/-- A `time.Time` in UTC, given by its civil fields and nanosecond.  `time.Date` called with
in-range fields denotes the instant that has exactly these fields, and `Time.Format` reads the
same fields back; the embedding keeps the fields instead of a count of seconds. -/
structure Time where
  year : Int
  month : Nat
  day : Nat
  hour : Nat
  min : Nat
  sec : Nat
  nsec : Nat
  deriving DecidableEq, Repr

/-- The zero `time.Time`: January 1, year 1, 00:00:00 UTC. -/
def Time.zero : Time := ⟨1, 1, 1, 0, 0, 0, 0⟩

/-- StirrTime is the time.Time with JSON marshal and unmarshal capability. -/
structure StirrTime where
  Time : Time
  deriving DecidableEq, Repr

/-! ## Data model (`structs.go`) -/

/-- Anonymous struct of `Channel.Icon`. -/
structure ChannelIcon where
  Src : String
  deriving DecidableEq, Repr

/-- One lineup entry.  `Categories []interface{}` is never read by the program and is left
out. -/
structure Channel where
  DisplayName : String
  Icon : ChannelIcon
  ID : String
  deriving DecidableEq, Repr

/-- The decoded lineup response. -/
structure Lineup where
  Channels : List Channel
  deriving DecidableEq, Repr

structure Image where
  Width : Int
  Height : Int
  Text : String
  URL : String
  deriving DecidableEq, Repr

/-- Modelled from the spec: `xmltv.CommonElement` of package `internal/xmltv`, whose
declaration is not among the sources; the only field the program names is `Value`. -/
structure CommonElement where
  Value : String
  deriving DecidableEq, Repr

/-- One guide entry. -/
structure Program where
  Title : CommonElement
  IsLive : Bool
  Description : CommonElement
  Start : StirrTime
  Stop : StirrTime
  Channel : String
  Categories : List CommonElement
  deriving DecidableEq, Repr

/-- `ChannelStatus.Rss.Channel.Item.MediaContent`; of its fields the program reads only
`Logo.URL`, a few neighbours are kept, the others are left out. -/
structure MediaContent where
  Logo : Image
  Medium : String
  URL : String
  IsLive : Bool
  deriving DecidableEq, Repr

/-- `ChannelStatus.Rss.Channel.Item`. -/
structure RssItem where
  Link : String
  Category : String
  MediaContent : MediaContent
  deriving DecidableEq, Repr

/-- `ChannelStatus.Rss.Channel`. -/
structure RssChannel where
  Item : RssItem
  ID : String
  Link : String
  Description : String
  Title : String
  deriving DecidableEq, Repr

/-- `ChannelStatus.Rss`. -/
structure Rss where
  Channel : RssChannel
  Version : String
  deriving DecidableEq, Repr

/-- Live status of one channel, with the fields the refresh assigns (`ID`, `Programs`,
`Number`). -/
structure ChannelStatus where
  ID : String
  Programs : List Program
  Number : Int
  Rss : Rss
  deriving DecidableEq, Repr

/-- The decoded guide response. -/
structure GuideData where
  Channel : List Channel
  Programs : List Program
  deriving DecidableEq, Repr

/-- `StationDetection.Page[i].Button.MediaContent.SinclairActionConfig`. -/
structure SinclairActionConfig where
  Station : List String
  City : String
  deriving DecidableEq, Repr

/-- `StationDetection.Page[i].Button.MediaContent`. -/
structure ButtonMediaContent where
  SinclairAction : String
  SinclairActionConfig : SinclairActionConfig
  URL : String
  deriving DecidableEq, Repr

/-- `StationDetection.Page[i].Button`. -/
structure Button where
  Category : String
  MediaContent : ButtonMediaContent
  deriving DecidableEq, Repr

/-- One element of `StationDetection.Page`; the fields beside `Button` are never read. -/
structure Page where
  DisplayTitle : String
  Button : Button
  deriving DecidableEq, Repr

/-- The decoded auto-detection response. -/
structure StationDetection where
  Page : List Page
  HideNav : String
  deriving DecidableEq, Repr

/-- The zero value Go gives `var autodetect StationDetection`. -/
def StationDetection.zero : StationDetection := ⟨[], ""⟩

/-- The zero value of `ChannelStatus{}`. -/
def ChannelStatus.zero : ChannelStatus :=
  ⟨"", [], 0, ⟨⟨⟨"", "", ⟨⟨0, 0, "", ""⟩, "", "", false⟩⟩, "", "", "", ""⟩, ""⟩⟩

/-! ## The client and the remote service (`main.go`) -/

/-- The client, which is also the cache.  `httpClient` and the embedded `sync.Mutex` carry no
data of the cache and are left out. -/
structure StirrClient where
  StationID : String
  Lineup : List Channel
  channels : List ChannelStatus
  ProgramCount : Int
  LastUpdate : Time
  deriving DecidableEq, Repr

/-- The client as `NewStirrClient` builds it, before any refresh. -/
def StirrClient.new (stationID : String) : StirrClient :=
  ⟨stationID, [], [], 0, Time.zero⟩

/-- The remote service during one refresh.  Each field gives, for a request URL, the value
`makeRequest` leaves in `output` and the error it returns.  A request that fails before the
body is decoded leaves `output` at the zero value it was declared with.  The per-channel
requests take the lineup position they are made for as well, so that two requests for one URL
may be answered differently.  `now` is what `time.Now()` returns at the end of the refresh. -/
structure Remote where
  stationAutoSelection : String → StationDetection × Option Err
  channels : String → Lineup × Option Err
  status : Nat → String → ChannelStatus × Option Err
  program : Nat → String → GuideData × Option Err
  now : Time

/-- The URL `makeRequest` asks for: the station is appended when it is set. -/
def requestURL (s : StirrClient) (url : String) : String :=
  if s.StationID ≠ "" then url ++ "?station=" ++ s.StationID else url

/-- What a Go call yields: a return value or a run-time panic. -/
inductive Outcome (α : Type) where
  | returned (a : α)
  | panicked (msg : String)
  deriving DecidableEq, Repr

/-- Go `xs[0]`. -/
def index0 {α : Type} (xs : List α) : Outcome α :=
  match xs with
  | [] => .panicked "index out of range [0] with length 0"
  | x :: _ => .returned x

/-- `StirrClient.GetStation`: the operand `autodetect.Page[0]. ... .Station[0]` of the return
statement is evaluated whatever `reqErr` is. -/
def GetStation (r : Remote) (s : StirrClient) : Outcome (String × Option Err) :=
  let (autodetect, reqErr) := r.stationAutoSelection
    (requestURL s "https://ott-stationselection.sinclairstoryline.com/stationAutoSelection")
  match index0 autodetect.Page with
  | .panicked m => .panicked m
  | .returned page =>
    match index0 page.Button.MediaContent.SinclairActionConfig.Station with
    | .panicked m => .panicked m
    | .returned station => .returned (station, reqErr)

/-- `NewStirrClient`, with the value of the environment variable `STIRR_STATION_ID` as an
argument.  The result is the client or the error, unless `GetStation` panics. -/
def NewStirrClient (r : Remote) (env : String) : Outcome (Option StirrClient × Option Err) :=
  let client := StirrClient.new env
  if client.StationID = "" then
    match GetStation r client with
    | .panicked m => .panicked m
    | .returned (stationID, stationErr) =>
      match stationErr with
      | some e => .returned (none, some e)
      | none => .returned (some { client with StationID := stationID }, none)
  else .returned (some client, none)

/-- `StirrClient.GetChannels`. -/
def GetChannels (r : Remote) (s : StirrClient) : List Channel × Option Err :=
  let (lineup, reqErr) := r.channels
    (requestURL s "https://ott-gateway-stirr.sinclairstoryline.com/api/rest/v3/channels/stirr")
  (lineup.Channels, reqErr)

/-- `StirrClient.GetChannel`; `n` is the lineup position the request is made for. -/
def GetChannel (r : Remote) (s : StirrClient) (n : Nat) (channelID : String) :
    ChannelStatus × Option Err :=
  r.status n (requestURL s
    ("https://ott-gateway-stirr.sinclairstoryline.com/api/rest/v3/status/" ++ channelID))

/-- `StirrClient.GetChannelPrograms`; `n` is the lineup position the request is made for. -/
def GetChannelPrograms (r : Remote) (s : StirrClient) (n : Nat) (channelID : String) :
    List Program × Option Err :=
  let (guide, reqErr) := r.program n (requestURL s
    ("https://ott-gateway-stirr.sinclairstoryline.com/api/rest/v3/program/stirr/ott/"
      ++ channelID))
  (guide.Programs, reqErr)

/-- Insertion of one element by `less`, the step of `sortSlice`. -/
def sortInsert {α : Type} (less : α → α → Bool) (a : α) : List α → List α
  | [] => [a]
  | b :: bs => if less b a then b :: sortInsert less a bs else a :: b :: bs

/-- Go `sort.Slice(xs, less)`.  The library promises an ordering by `less` of the same
elements and no stability; insertion sort, which the library itself runs on short slices, is
used here.  Wherever `FillCache` reaches the sort the keys are strictly increasing already,
and there every sorting procedure returns its input. -/
def sortSlice {α : Type} (less : α → α → Bool) : List α → List α
  | [] => []
  | a :: as => sortInsert less a (sortSlice less as)

/-- How the `for idx, channel := range lineup` loop of `FillCache` ends: by one of the two
`return` statements in its body, or by running out of lineup entries. -/
inductive LoopExit where
  | returned (s : StirrClient) (err : Option Err)
  | completed (s : StirrClient) (totalPrograms : Int)
  deriving DecidableEq, Repr

/-- The loop of `FillCache` over the remaining lineup entries; `idx` is the position of the
first of them, `totalPrograms` the running count, `s` the client with the channels appended
so far. -/
def fillLoop (r : Remote) : List Channel → Nat → Int → StirrClient → LoopExit
  | [], _, totalPrograms, s => .completed s totalPrograms
  | channel :: rest, idx, totalPrograms, s =>
    let (status, statusErr) := GetChannel r s idx channel.DisplayName
    match statusErr with
    | some _ => .returned s none
    | none =>
      let status := { status with Number := (idx : Int) + 1 }
      let status := { status with ID := "stirr-" ++ channel.ID }
      let (programs, programsErr) := GetChannelPrograms r s idx channel.DisplayName
      match programsErr with
      | some e => .returned s (some e)
      | none =>
        let totalPrograms := totalPrograms + (programs.length : Int)
        let status := { status with Programs := programs }
        fillLoop r rest (idx + 1) totalPrograms { s with channels := s.channels ++ [status] }

/-- `StirrClient.FillCache`: the client after the call and the returned error. -/
def FillCache (r : Remote) (s : StirrClient) : StirrClient × Option Err :=
  let (lineup, lineupErr) := GetChannels r s
  match lineupErr with
  | some e => (s, some e)
  | none =>
    let s := { s with Lineup := lineup }
    let s := { s with channels := [] }
    match fillLoop r lineup 0 0 s with
    | .returned s err => (s, err)
    | .completed s totalPrograms =>
      let s := { s with LastUpdate := r.now }
      let s := { s with ProgramCount := totalPrograms }
      let s := { s with
        channels := sortSlice (fun a b => decide (a.Number < b.Number)) s.channels }
      (s, none)


/-! ## Timestamps (`structs.go`, with the parts of package `time` it calls) -/

/-- The layout constant: YYYYMMDDHHMMSS, read by package `time` as the six fields
`2006` `01` `02` `15` `04` `05` with nothing between them. -/
def stLayout : String := "20060102150405"

/-- A byte between `'0'` and `'9'`. -/
def isDigitChar (c : Char) : Bool := decide ('0'.toNat ≤ c.toNat ∧ c.toNat ≤ '9'.toNat)

/-- Package `time`, `isDigit(s, i)`: false when `i` is past the end. -/
def isDigit (s : List Char) (i : Nat) : Bool :=
  match s.get? i with
  | none => false
  | some c => isDigitChar c

/-- The value `c - '0'` of a digit. -/
def digitVal (c : Char) : Nat := c.toNat - '0'.toNat

/-- Package `time`, `getnum(s, fixed)`: one or two leading digits, two when `fixed`. -/
def getnum (s : List Char) (fixed : Bool) : Option (Nat × List Char) :=
  match s with
  | [] => none
  | c0 :: rest =>
    if !isDigitChar c0 then none
    else match rest with
      | [] => if fixed then none else some (digitVal c0, rest)
      | c1 :: rest1 =>
        if !isDigitChar c1 then (if fixed then none else some (digitVal c0, rest))
        else some (digitVal c0 * 10 + digitVal c1, rest1)

/-- Package `time`, `leadingInt`: the leading digits of `s` as a number, with what follows
them; `none` when the number passes 2^63. -/
def leadingInt : List Char → Nat → Option (Nat × List Char)
  | [], x => some (x, [])
  | c :: rest, x =>
    if !isDigitChar c then some (x, c :: rest)
    else if x > 2 ^ 63 / 10 then none
    else
      let x := x * 10 + digitVal c
      if x > 2 ^ 63 then none else leadingInt rest x

/-- Package `time`, `atoi`: an optional sign, then digits to the end of the string. -/
def atoi (s : List Char) : Option Int :=
  let (neg, s) := match s with
    | c :: rest => if c = '-' ∨ c = '+' then (decide (c = '-'), rest) else (false, s)
    | [] => (false, s)
  match leadingInt s 0 with
  | none => none
  | some (q, rem) =>
    if rem.length > 0 then none
    else some (if neg then -(q : Int) else (q : Int))

/-- Package `time`, `isLeap`. -/
def isLeap (year : Int) : Bool := decide (year % 4 = 0 ∧ (year % 100 ≠ 0 ∨ year % 400 = 0))

/-- Package `time`, `daysIn`. -/
def daysIn (m : Nat) (year : Int) : Nat :=
  if m = 2 ∧ isLeap year then 29
  else if m = 2 then 28
  else if m = 4 ∨ m = 6 ∨ m = 9 ∨ m = 11 then 30
  else 31

/-- Package `time`, `commaOrPeriod` (the comma is accepted since Go 1.17, the period in every
release). -/
def commaOrPeriod (c : Char) : Bool := decide (c = '.' ∨ c = ',')

/-- Package `time`, `parseNanoseconds(value, nbytes)`, called on a separator followed by
`nbytes - 1` digits: at most nine digits are read and scaled to nanoseconds. -/
def parseNanoseconds (value : List Char) (nbytes : Nat) : Option Nat :=
  match value with
  | [] => none
  | c :: _ =>
    if !commaOrPeriod c then none
    else
      let value := if nbytes > 10 then value.take 10 else value
      let nbytes := if nbytes > 10 then 10 else nbytes
      match atoi ((value.drop 1).take (nbytes - 1)) with
      | none => none
      | some ns =>
        if ns < 0 then none
        else some (ns.toNat * 10 ^ (10 - nbytes))

/-- Package `time`, `Date(year, month, day, hour, min, sec, nsec, UTC)`, for arguments inside
their calendar ranges (which `Parse` has checked before it calls `Date`). -/
def Date (year : Int) (month day hour min sec nsec : Nat) : Time :=
  ⟨year, month, day, hour, min, sec, nsec⟩

/-- Package `time`, `Parse(stLayout, value)`, field by field in the order of the layout
(`stdLongYear`, `stdZeroMonth`, `stdZeroDay`, `stdHour`, `stdZeroMinute`, `stdZeroSecond`).
After the seconds a fraction (a period or comma and digits) is read from the input although
the layout has none, as the package documents: "When parsing (only), the input may contain a
fractional second field immediately after the seconds field, even if the layout does not
signify its presence."  Anything left after that is an error, and the day is checked against
the month at the end. -/
def Parse (value : List Char) : Except Err Time :=
  -- stdLongYear
  if value.length < 4 ∨ !isDigit value 0 then .error "cannot parse year" else
  match atoi (value.take 4) with
  | none => .error "cannot parse year"
  | some year =>
  -- stdZeroMonth
  match getnum (value.drop 4) true with
  | none => .error "cannot parse month"
  | some (month, value) =>
  if month ≤ 0 ∨ 12 < month then .error "month out of range" else
  -- stdZeroDay
  match getnum value true with
  | none => .error "cannot parse day"
  | some (day, value) =>
  -- stdHour
  match getnum value false with
  | none => .error "cannot parse hour"
  | some (hour, value) =>
  if 24 ≤ hour then .error "hour out of range" else
  -- stdZeroMinute
  match getnum value true with
  | none => .error "cannot parse minute"
  | some (min, value) =>
  if 60 ≤ min then .error "minute out of range" else
  -- stdZeroSecond
  match getnum value true with
  | none => .error "cannot parse second"
  | some (sec, value) =>
  if 60 ≤ sec then .error "second out of range" else
  let frac : Option (Nat × List Char) :=
    match value with
    | c :: _ :: _ =>
      if commaOrPeriod c ∧ isDigit value 1 then
        let n := 2 + ((value.drop 2).takeWhile isDigitChar).length
        match parseNanoseconds value n with
        | none => none
        | some nsec => some (nsec, value.drop n)
      else some (0, value)
    | _ => some (0, value)
  match frac with
  | none => .error "cannot parse fractional second"
  | some (nsec, value) =>
  if value.length ≠ 0 then .error "extra text"
  else if day < 1 ∨ day > daysIn month year then .error "day out of range"
  else .ok (Date year month day hour min sec nsec)

/-- The decimal digits of `u`, most significant first, from at most `fuel` divisions. -/
def decimal : Nat → Nat → List Char
  | 0, _ => []
  | fuel + 1, u =>
    if u < 10 then [Char.ofNat ('0'.toNat + u)]
    else decimal fuel (u / 10) ++ [Char.ofNat ('0'.toNat + u % 10)]

/-- Package `time`, `appendInt(b, x, width)`: a minus sign for a negative `x`, then the
digits of its magnitude padded with zeros to `width`.  The digits are formed in a buffer of
twenty bytes, enough for a 64-bit magnitude. -/
def appendInt (b : List Char) (x : Int) (width : Nat) : List Char :=
  let b := if x < 0 then b ++ ['-'] else b
  let digits := decimal 20 x.natAbs
  b ++ List.replicate (width - digits.length) '0' ++ digits

/-- Package `time`, `t.Format(stLayout)`. -/
def Format (t : Time) : List Char :=
  let b := appendInt [] t.year 4
  let b := appendInt b t.month 2
  let b := appendInt b t.day 2
  let b := appendInt b t.hour 2
  let b := appendInt b t.min 2
  appendInt b t.sec 2

/-- Package `strings`, `Trim(s, "\"")`: the quote characters at both ends are removed. -/
def trimQuotes (s : List Char) : List Char :=
  ((s.dropWhile (fun c => c = '"')).reverse.dropWhile (fun c => c = '"')).reverse

/-- `StirrTime.UnmarshalJSON`: the receiver after the call and the returned error. -/
def StirrTime.UnmarshalJSON (t : StirrTime) (b : String) : StirrTime × Option Err :=
  let s := trimQuotes b.data
  match Parse s with
  | .error err => (t, some err)
  | .ok parsed => ({ t with Time := parsed }, none)

/-- `StirrTime.MarshalJSON`. -/
def StirrTime.MarshalJSON (t : StirrTime) : String × Option Err :=
  let s := Format t.Time
  (String.mk s, none)

/-! ## Renderers (`structs.go`, `main.go`) -/

/-- Package `strings`, `Join(elems, sep)`. -/
def Join : List String → String → String
  | [], _ => ""
  | [a], _ => a
  | a :: b :: rest, sep => a ++ sep ++ Join (b :: rest) sep

/-- Package `strings`, `ReplaceAll(s, "\n", "")`: every line feed is deleted. -/
def removeNewlines (s : String) : String :=
  String.mk (s.data.filter (fun c => c ≠ '\n'))

/-- `ChannelStatus.M3ULine`. -/
def ChannelStatus.M3ULine (c : ChannelStatus) : String :=
  let headerPieces : List String := [
    "#EXTINF:0",
    "channel-id=\"" ++ c.ID ++ "\"",
    "tvg-logo=\"" ++ c.Rss.Channel.Item.MediaContent.Logo.URL ++ "\"",
    "tvg-name=\"" ++ c.Rss.Channel.Title ++ "\""]
  let cleaned := removeNewlines (Join headerPieces " ")
  cleaned ++ ", " ++ c.Rss.Channel.Title ++ "\n" ++ c.Rss.Channel.Item.Link

/-- Modelled from the spec: `xmltv.Icon` of package `internal/xmltv`, whose declaration is not
among the sources; the fields are those `ChannelStatus.XMLTV` assigns. -/
structure XmltvIcon where
  Source : String
  Width : Int
  Height : Int
  deriving DecidableEq, Repr

/-- Modelled from the spec: `xmltv.Channel` of package `internal/xmltv`, whose declaration is
not among the sources; the fields are those `ChannelStatus.XMLTV` assigns. -/
structure XmltvChannel where
  DisplayNames : List CommonElement
  Icons : List XmltvIcon
  ID : String
  deriving DecidableEq, Repr

/-- Modelled from the spec: `xmltv.Programme` of package `internal/xmltv`, whose declaration
is not among the sources; the fields are those `Program.XMLTV` assigns, `Start` and `Stop`
being the converted `StirrTime` values. -/
structure XmltvProgramme where
  Titles : List CommonElement
  Descriptions : List CommonElement
  Categories : List CommonElement
  Start : Time
  Stop : Time
  Channel : String
  deriving DecidableEq, Repr

/-- Modelled from the spec: `xmltv.TV` of package `internal/xmltv`, whose declaration is not
among the sources; the fields are those the `epg` handler assigns. -/
structure XmltvTV where
  GeneratorInfoName : String
  GeneratorInfoURL : String
  Channels : List XmltvChannel
  Programmes : List XmltvProgramme
  deriving DecidableEq, Repr

/-- Package `strconv`, `Itoa`. -/
def Itoa (x : Int) : String := toString x

/-- `ChannelStatus.XMLTV`. -/
def ChannelStatus.XMLTV (c : ChannelStatus) : XmltvChannel :=
  { DisplayNames := [⟨c.Rss.Channel.Title⟩, ⟨Itoa c.Number⟩]
    Icons := [⟨c.Rss.Channel.Item.MediaContent.Logo.URL, 340, 255⟩]
    ID := c.ID }

/-- `Program.XMLTV`. -/
def Program.XMLTV (p : Program) : XmltvProgramme :=
  let start := p.Start.Time
  let stop := p.Stop.Time
  { Titles := [p.Title]
    Descriptions := [p.Description]
    Categories := p.Categories
    Start := start
    Stop := stop
    Channel := "stirr-" ++ p.Channel }

/-- The body the `playlist` handler writes (with content type `audio/x-mpegurl`). -/
def playlist (client : StirrClient) : String :=
  let allLines := client.channels.map ChannelStatus.M3ULine
  "#EXTM3U\n" ++ Join allLines "\n\n" ++ "\n"

/-- The guide document the `epg` handler builds before it is marshalled to XML. -/
def epg (client : StirrClient) : XmltvTV :=
  let epg : XmltvTV :=
    { GeneratorInfoName := "stirr-for-channels"
      GeneratorInfoURL := "https://github.com/robbiet480/stirr-for-channels"
      Channels := []
      Programmes := [] }
  client.channels.foldl
    (fun epg channel =>
      let epg := { epg with Channels := epg.Channels ++ [channel.XMLTV] }
      channel.Programs.foldl
        (fun epg program => { epg with Programmes := epg.Programmes ++ [program.XMLTV] }) epg)
    epg

/-- The figures the `index` handler renders: `len .Lineup` and `.ProgramCount`. -/
def index (client : StirrClient) : Nat × Int :=
  (client.Lineup.length, client.ProgramCount)

/-! ## The scheduler (`main`) -/

/-- The process as `main` drives it: serving with a cache, or gone with an exit status
(`log.Fatalln` exits with status 1, a panic with status 2). -/
inductive Process where
  | running (client : StirrClient)
  | exited (status : Nat)
  deriving DecidableEq, Repr

/-- The start of `main`: the client is configured and the cache filled once; either error is
passed to `log.Fatalln`. -/
def startup (r : Remote) (env : String) : Process :=
  match NewStirrClient r env with
  | .panicked _ => .exited 2
  | .returned (_, some _) => .exited 1
  | .returned (none, none) => .exited 2
  | .returned (some client, none) =>
    match FillCache r client with
    | (_, some _) => .exited 1
    | (client, none) => .running client

/-- One firing of the ticker in the goroutine of `main`, against the remote service as it is
at that moment: `FillCache` runs and its error, if any, is passed to `log.Fatalln`.  Nothing
ever sends on `quit`, so the loop has no other step. -/
def onTick (r : Remote) : Process → Process
  | .exited status => .exited status
  | .running client =>
    match FillCache r client with
    | (_, some _) => .exited 1
    | (client, none) => .running client

/-- A run of ticks, in order. -/
def ticks (rs : List Remote) (p : Process) : Process :=
  rs.foldl (fun p r => onTick r p) p

/-! ## Vocabulary for the statements -/

/-- The status request for lineup entry `channel` at position `idx` returns an error. -/
def statusFails (r : Remote) (s : StirrClient) (idx : Nat) (channel : Channel) : Bool :=
  (GetChannel r s idx channel.DisplayName).2.isSome

/-- The guide request for lineup entry `channel` at position `idx` returns an error. -/
def programFails (r : Remote) (s : StirrClient) (idx : Nat) (channel : Channel) : Bool :=
  (GetChannelPrograms r s idx channel.DisplayName).2.isSome

/-- One of the two requests for the lineup entry returns an error. -/
def fetchFails (r : Remote) (s : StirrClient) (idx : Nat) (channel : Channel) : Bool :=
  statusFails r s idx channel || programFails r s idx channel

/-- The record for lineup entry `channel` at 0-based position `idx`: the fetched status with
display number `idx + 1`, identifier `stirr-` followed by the source identifier, and the
fetched programs. -/
def builtRecord (r : Remote) (s : StirrClient) (idx : Nat) (channel : Channel) :
    ChannelStatus :=
  { (GetChannel r s idx channel.DisplayName).1 with
    Number := (idx : Int) + 1
    ID := "stirr-" ++ channel.ID
    Programs := (GetChannelPrograms r s idx channel.DisplayName).1 }

/-- The records for consecutive lineup entries, the first at position `idx`. -/
def builtRecords (r : Remote) (s : StirrClient) (idx : Nat) (entries : List Channel) :
    List ChannelStatus :=
  (entries.enumFrom idx).map (fun p => builtRecord r s p.1 p.2)

/-- No request for the consecutive lineup entries, the first at position `idx`, fails. -/
def allFetched (r : Remote) (s : StirrClient) (idx : Nat) (entries : List Channel) : Prop :=
  ∀ p ∈ entries.enumFrom idx, fetchFails r s p.1 p.2 = false

instance (r : Remote) (s : StirrClient) (idx : Nat) (entries : List Channel) :
    Decidable (allFetched r s idx entries) := by
  unfold allFetched; infer_instance

/-- The number of programs attached to a list of records. -/
def programTotal (cs : List ChannelStatus) : Int :=
  (cs.map (fun c => (c.Programs.length : Int))).sum

/-- The cache after a run of `FillCache` calls, one remote state per call. -/
def fills (rs : List Remote) (s : StirrClient) : StirrClient :=
  rs.foldl (fun s r => (FillCache r s).1) s

/-- Snapshot consistency: the program count is the number of programs attached to the cached
records, and the channel count the `index` page reports is the number of cached records. -/
def Consistent (s : StirrClient) : Prop :=
  (index s).2 = programTotal s.channels ∧ (index s).1 = s.channels.length

instance (s : StirrClient) : Decidable (Consistent s) := by
  unfold Consistent; infer_instance

/-- A call that fails at the lineup request, or all of whose requests succeed. -/
def CleanCall (r : Remote) (s : StirrClient) : Prop :=
  (GetChannels r s).2 ≠ none ∨ allFetched r s 0 (GetChannels r s).1

instance (r : Remote) (s : StirrClient) : Decidable (CleanCall r s) := by
  unfold CleanCall; infer_instance

/-- The cache is left as it was whenever some per-channel request of the call fails. -/
def FailedFetchKeepsCache (r : Remote) (s : StirrClient) : Prop :=
  (GetChannels r s).2 = none →
    (∃ p ∈ (GetChannels r s).1.enumFrom 0, fetchFails r s p.1 p.2 = true) →
    (FillCache r s).1 = s

/-- Every program attached to a cached record refers, in the guide, to that record. -/
def ProgramsReferToOwner (s : StirrClient) : Prop :=
  ∀ c ∈ s.channels, ∀ q ∈ c.Programs, (Program.XMLTV q).Channel = c.ID

instance (s : StirrClient) : Decidable (ProgramsReferToOwner s) := by
  unfold ProgramsReferToOwner; infer_instance

/-- The guide responses of the call list, for every lineup entry, only programs whose channel
field is the source identifier of that entry. -/
def GuideMatchesLineup (r : Remote) (s : StirrClient) (lineup : List Channel) : Prop :=
  ∀ p ∈ lineup.enumFrom 0, ∀ q ∈ (GetChannelPrograms r s p.1 p.2.DisplayName).1,
    q.Channel = p.2.ID

instance (r : Remote) (s : StirrClient) (lineup : List Channel) :
    Decidable (GuideMatchesLineup r s lineup) := by
  unfold GuideMatchesLineup; infer_instance

/-- A tick whose refresh fails leaves the process running with the cache it had. -/
def FailedTickKeepsRunning (r : Remote) (client : StirrClient) : Prop :=
  (FillCache r client).2 ≠ none → onTick r (.running client) = .running client

/-! ## Sample inputs -/

/-- A lineup entry with a lookup name and a source identifier. -/
def sampleChannel (name id : String) : Channel := ⟨name, ⟨""⟩, id⟩

/-- A guide entry with a title and a channel field. -/
def sampleProgram (title channel : String) : Program :=
  ⟨⟨title⟩, false, ⟨""⟩, ⟨⟨2021, 4, 22, 3, 0, 0, 0⟩⟩, ⟨⟨2021, 4, 22, 4, 0, 0, 0⟩⟩, channel, []⟩

/-- A status record with a title, a playback link and a logo. -/
def sampleStatus (title link logo : String) : ChannelStatus :=
  ⟨"", [], 0, ⟨⟨⟨link, "", ⟨⟨340, 255, "", logo⟩, "", "", true⟩⟩, "", "", "", title⟩, "2.0"⟩⟩

/-- A remote service that answers the lineup request with `lineup`, fails the status requests
made for the positions in `statusDown` and the guide requests made for the positions in
`guideDown`, and answers the other guide requests with `guide`.  Its auto-detection request
fails before any body is decoded. -/
def sampleRemote (lineup : List Channel) (statusDown guideDown : List Nat)
    (guide : Nat → List Program) : Remote :=
  { stationAutoSelection := fun _ => (StationDetection.zero, some "connection refused")
    channels := fun _ => (⟨lineup⟩, none)
    status := fun n _ =>
      if n ∈ statusDown then (ChannelStatus.zero, some "unexpected response 500")
      else (sampleStatus "Stirr City" "http://example.test/live.m3u8"
        "http://example.test/logo.png", none)
    program := fun n _ =>
      if n ∈ guideDown then (⟨[], []⟩, some "unexpected response 500")
      else (⟨[], guide n⟩, none)
    now := ⟨2021, 4, 22, 3, 0, 0, 0⟩ }

/-- A remote service whose lineup request fails. -/
def downRemote : Remote :=
  { stationAutoSelection := fun _ => (StationDetection.zero, some "connection refused")
    channels := fun _ => (⟨[]⟩, some "connection refused")
    status := fun _ _ => (ChannelStatus.zero, some "connection refused")
    program := fun _ _ => (⟨[], []⟩, some "connection refused")
    now := ⟨2021, 4, 22, 3, 30, 0, 0⟩ }

/-- Three lineup entries. -/
def lineupABC : List Channel :=
  [sampleChannel "alpha" "a1", sampleChannel "bravo" "b2", sampleChannel "charlie" "c3"]

/-- Two programs for the lineup entry at position `n` of `lineupABC`. -/
def guideABC (n : Nat) : List Program :=
  match lineupABC.get? n with
  | some channel => [sampleProgram "news" channel.ID, sampleProgram "weather" channel.ID]
  | none => []

/-- A guide whose programs name a channel that is not in the lineup. -/
def guideForeign (_ : Nat) : List Program := [sampleProgram "news" "zz9"]

/-- The cache after one refresh of `lineupABC` with two programs per channel. -/
def filledABC : StirrClient :=
  (FillCache (sampleRemote lineupABC [] [] guideABC) (StirrClient.new "")).1

/-- The cache the process serves after `main` has started against a remote service that
answers every request, with the station given by the environment. -/
def servingABC : StirrClient :=
  (FillCache (sampleRemote lineupABC [] [] guideABC) (StirrClient.new "seattle")).1

/-! ## Lines of a text -/

/-- The lines of a text: the pieces between its line feeds. -/
def linesOf : List Char → List (List Char)
  | [] => [[]]
  | c :: cs =>
    if c = '\n' then [] :: linesOf cs
    else
      match linesOf cs with
      | [] => [[c]]
      | l :: ls => (c :: l) :: ls

/-- The lines of a string. -/
def textLines (s : String) : List String := (linesOf s.data).map String.mk

/-- The string has no line feed in it. -/
def NoLineBreak (s : String) : Prop := '\n' ∉ s.data

instance (s : String) : Decidable (NoLineBreak s) := by
  unfold NoLineBreak; infer_instance

/-- The header line of a channel's stanza: the derived identifier, the logo URL and the title
as attributes, line feeds removed, then a comma and the title. -/
def headerLine (c : ChannelStatus) : String :=
  "#EXTINF:0 channel-id=\"" ++ removeNewlines c.ID ++ "\" tvg-logo=\""
    ++ removeNewlines c.Rss.Channel.Item.MediaContent.Logo.URL ++ "\" tvg-name=\""
    ++ removeNewlines c.Rss.Channel.Title ++ "\", " ++ c.Rss.Channel.Title

/-- The lines after `#EXTM3U` up to the closing line feed: two per channel, the header line
and the playback link, with one empty line between consecutive channels (and a single empty
line when there is no channel). -/
def stanzaLines : List ChannelStatus → List String
  | [] => [""]
  | [c] => [headerLine c, c.Rss.Channel.Item.Link]
  | c :: c1 :: rest =>
    headerLine c :: c.Rss.Channel.Item.Link :: "" :: stanzaLines (c1 :: rest)

/-- The playlist body is the line `#EXTM3U`, then the stanzas of the cached channels in cache
order, two lines each and one empty line between them, then the end of the last line. -/
def PlaylistShape (client : StirrClient) : Prop :=
  textLines (playlist client) = "#EXTM3U" :: stanzaLines client.channels ++ [""]

instance (client : StirrClient) : Decidable (PlaylistShape client) := by
  unfold PlaylistShape; infer_instance

/-- A cache with one record whose playback link has a line feed in it. -/
def brokenLinkClient : StirrClient :=
  { StirrClient.new "" with
    Lineup := [sampleChannel "alpha" "a1"]
    channels := [{ sampleStatus "Alpha" "http://example.test/a\nb" "" with
      ID := "stirr-a1", Number := 1 }] }

/-! ## Timestamps in the layout -/

/-- The number a run of decimal digits denotes. -/
def digitsValue (cs : List Char) : Nat :=
  cs.foldl (fun n c => n * 10 + digitVal c) 0

/-- The instant a run of fourteen digits YYYYMMDDHHMMSS denotes, in UTC. -/
def stampTime (cs : List Char) : Time :=
  { year := (digitsValue (cs.take 4) : Int)
    month := digitsValue ((cs.drop 4).take 2)
    day := digitsValue ((cs.drop 6).take 2)
    hour := digitsValue ((cs.drop 8).take 2)
    min := digitsValue ((cs.drop 10).take 2)
    sec := digitsValue ((cs.drop 12).take 2)
    nsec := 0 }

/-- A string in the layout YYYYMMDDHHMMSS that denotes a valid calendar date and time:
fourteen digits, month 1 to 12, day 1 to the length of the month, hour below 24, minute and
second below 60. -/
def ValidStamp (cs : List Char) : Prop :=
  cs.length = 14 ∧ (∀ c ∈ cs, isDigitChar c = true) ∧
  1 ≤ (stampTime cs).month ∧ (stampTime cs).month ≤ 12 ∧
  1 ≤ (stampTime cs).day ∧ (stampTime cs).day ≤ daysIn (stampTime cs).month (stampTime cs).year ∧
  (stampTime cs).hour < 24 ∧ (stampTime cs).min < 60 ∧ (stampTime cs).sec < 60

instance (cs : List Char) : Decidable (ValidStamp cs) := by
  unfold ValidStamp; infer_instance

/-- A fractional-second suffix: nothing, or a period or comma followed by one or more
digits. -/
def isFraction : List Char → Bool
  | [] => true
  | sep :: ds => commaOrPeriod sep && !ds.isEmpty && ds.all isDigitChar

/-- The nanoseconds a fractional-second suffix denotes: the digits after the separator are
the decimal places of a second, of which the first nine count (none for no suffix). -/
def fractionNanos : List Char → Nat
  | [] => 0
  | _ :: ds => digitsValue (ds.take 9) * 10 ^ (9 - (ds.take 9).length)

/-- A valid stamp, possibly with a fractional-second suffix. -/
def StampWithFraction (cs : List Char) : Prop :=
  ValidStamp (cs.take 14) ∧ isFraction (cs.drop 14) = true

instance (cs : List Char) : Decidable (StampWithFraction cs) := by
  unfold StampWithFraction; infer_instance

/-- A string that is not a valid stamp, once the quotes around it are removed, is rejected
and leaves the receiver as it was. -/
def RejectsUnlessStamp (t : StirrTime) (b : String) : Prop :=
  ¬ ValidStamp (trimQuotes b.data) →
    (StirrTime.UnmarshalJSON t b).2 ≠ none ∧ (StirrTime.UnmarshalJSON t b).1 = t

/-! # Theorems -/

/-! ## The refresh loop -/

theorem requestURL_congr {s s0 : StirrClient} (h : s.StationID = s0.StationID) (url : String) :
    requestURL s url = requestURL s0 url := by
  simp [requestURL, h]

theorem GetChannel_congr (r : Remote) {s s0 : StirrClient} (h : s.StationID = s0.StationID)
    (n : Nat) (k : String) : GetChannel r s n k = GetChannel r s0 n k := by
  simp [GetChannel, requestURL_congr h]

theorem GetChannelPrograms_congr (r : Remote) {s s0 : StirrClient}
    (h : s.StationID = s0.StationID) (n : Nat) (k : String) :
    GetChannelPrograms r s n k = GetChannelPrograms r s0 n k := by
  simp [GetChannelPrograms, requestURL_congr h]

theorem GetChannels_congr (r : Remote) {s s0 : StirrClient} (h : s.StationID = s0.StationID) :
    GetChannels r s = GetChannels r s0 := by
  simp [GetChannels, requestURL_congr h]

/-- One iteration whose two requests succeed appends the record and moves on. -/
theorem fillLoop_cons_ok (r : Remote) (s0 s : StirrClient) (hs : s.StationID = s0.StationID)
    (channel : Channel) (rest : List Channel) (idx : Nat) (total : Int)
    (hok : fetchFails r s0 idx channel = false) :
    fillLoop r (channel :: rest) idx total s =
      fillLoop r rest (idx + 1) (total + ((builtRecord r s0 idx channel).Programs.length : Int))
        { s with channels := s.channels ++ [builtRecord r s0 idx channel] } := by
  simp only [fetchFails, statusFails, programFails, Bool.or_eq_false_iff] at hok
  obtain ⟨h1, h2⟩ := hok
  rw [← GetChannel_congr r hs] at h1
  rw [← GetChannelPrograms_congr r hs] at h2
  rw [fillLoop]
  simp only [builtRecord, ← GetChannel_congr r hs, ← GetChannelPrograms_congr r hs]
  rcases hg : GetChannel r s idx channel.DisplayName with ⟨st, e1⟩
  rcases hp : GetChannelPrograms r s idx channel.DisplayName with ⟨ps, e2⟩
  rw [hg] at h1; rw [hp] at h2
  cases e1 with
  | some e => simp at h1
  | none =>
    cases e2 with
    | some e => simp at h2
    | none => rfl

/-- The loop over entries whose requests all succeed, followed by further entries. -/
theorem fillLoop_append_ok (r : Remote) (s0 : StirrClient) (rest : List Channel) :
    ∀ (pre : List Channel) (idx : Nat) (total : Int) (s : StirrClient),
      s.StationID = s0.StationID → allFetched r s0 idx pre →
      fillLoop r (pre ++ rest) idx total s =
        fillLoop r rest (idx + pre.length) (total + programTotal (builtRecords r s0 idx pre))
          { s with channels := s.channels ++ builtRecords r s0 idx pre } := by
  intro pre
  induction pre with
  | nil =>
    intro idx total s _ _
    simp [builtRecords, programTotal]
  | cons channel pre ih =>
    intro idx total s hs hall
    have hhead : fetchFails r s0 idx channel = false :=
      hall (idx, channel) (by simp [List.enumFrom])
    have htail : allFetched r s0 (idx + 1) pre := by
      intro p hp
      exact hall p (by simp [List.enumFrom, hp])
    rw [List.cons_append, fillLoop_cons_ok r s0 s hs channel (pre ++ rest) idx total hhead]
    rw [ih (idx + 1) _ { s with channels := s.channels ++ [builtRecord r s0 idx channel] } hs
      htail]
    simp only [builtRecords, List.enumFrom, List.map_cons, programTotal, List.sum_cons,
      List.length_cons, List.append_assoc, List.singleton_append]
    congr 1
    · omega
    · ring

/-- An iteration whose status request fails returns `nil` at once. -/
theorem fillLoop_cons_statusFails (r : Remote) (s0 s : StirrClient)
    (hs : s.StationID = s0.StationID) (channel : Channel) (rest : List Channel) (idx : Nat)
    (total : Int) (hfail : statusFails r s0 idx channel = true) :
    fillLoop r (channel :: rest) idx total s = .returned s none := by
  simp only [statusFails] at hfail
  rw [← GetChannel_congr r hs] at hfail
  rw [fillLoop]
  rcases hg : GetChannel r s idx channel.DisplayName with ⟨st, e1⟩
  rw [hg] at hfail
  cases e1 with
  | none => simp at hfail
  | some e => rfl

/-- An iteration whose status request succeeds and whose guide request fails returns that
error. -/
theorem fillLoop_cons_programFails (r : Remote) (s0 s : StirrClient)
    (hs : s.StationID = s0.StationID) (channel : Channel) (rest : List Channel) (idx : Nat)
    (total : Int) (hok : statusFails r s0 idx channel = false)
    (hfail : programFails r s0 idx channel = true) :
    fillLoop r (channel :: rest) idx total s =
      .returned s (GetChannelPrograms r s0 idx channel.DisplayName).2 := by
  simp only [statusFails] at hok
  simp only [programFails] at hfail
  rw [← GetChannel_congr r hs] at hok
  rw [← GetChannelPrograms_congr r hs] at hfail ⊢
  rw [fillLoop]
  rcases hg : GetChannel r s idx channel.DisplayName with ⟨st, e1⟩
  rcases hp : GetChannelPrograms r s idx channel.DisplayName with ⟨ps, e2⟩
  rw [hg] at hok; rw [hp] at hfail
  cases e1 with
  | some e => simp at hok
  | none =>
    cases e2 with
    | none => simp at hfail
    | some e => rfl

/-! ## The final sort -/

theorem sortInsert_eq_cons {α : Type} (less : α → α → Bool) (a : α) (l : List α)
    (h : ∀ b ∈ l, less b a = false) : sortInsert less a l = a :: l := by
  cases l with
  | nil => rfl
  | cons b bs => simp [sortInsert, h b (by simp)]

/-- A slice in which no later element is less than an earlier one is returned as it is. -/
theorem sortSlice_eq_self {α : Type} (less : α → α → Bool) (l : List α)
    (h : l.Pairwise (fun a b => less b a = false)) : sortSlice less l = l := by
  induction l with
  | nil => rfl
  | cons a as ih =>
    rw [List.pairwise_cons] at h
    rw [sortSlice, ih h.2, sortInsert_eq_cons less a as h.1]

theorem builtRecords_cons (r : Remote) (s : StirrClient) (idx : Nat) (channel : Channel)
    (rest : List Channel) :
    builtRecords r s idx (channel :: rest) =
      builtRecord r s idx channel :: builtRecords r s (idx + 1) rest := by
  simp [builtRecords, List.enumFrom]

theorem builtRecords_length (r : Remote) (s : StirrClient) (idx : Nat)
    (entries : List Channel) : (builtRecords r s idx entries).length = entries.length := by
  simp [builtRecords]

theorem builtRecords_number_gt (r : Remote) (s : StirrClient) :
    ∀ (entries : List Channel) (idx : Nat), ∀ c ∈ builtRecords r s idx entries,
      (idx : Int) < c.Number := by
  intro entries
  induction entries with
  | nil => intro idx c hc; simp [builtRecords] at hc
  | cons channel rest ih =>
    intro idx c hc
    rw [builtRecords_cons, List.mem_cons] at hc
    rcases hc with rfl | hc
    · simp [builtRecord]
    · have := ih (idx + 1) c hc
      push_cast at this
      omega

/-- The records are built with strictly increasing display numbers. -/
theorem builtRecords_pairwise (r : Remote) (s : StirrClient) :
    ∀ (entries : List Channel) (idx : Nat),
      (builtRecords r s idx entries).Pairwise (fun a b => a.Number < b.Number) := by
  intro entries
  induction entries with
  | nil => intro idx; simp [builtRecords]
  | cons channel rest ih =>
    intro idx
    rw [builtRecords_cons, List.pairwise_cons]
    refine ⟨?_, ih (idx + 1)⟩
    intro c hc
    have := builtRecords_number_gt r s rest (idx + 1) c hc
    simp only [builtRecord]
    push_cast at this
    omega

/-- The sort at the end of `FillCache` leaves the built records in lineup order. -/
theorem sortSlice_builtRecords (r : Remote) (s : StirrClient) (idx : Nat)
    (entries : List Channel) :
    sortSlice (fun a b => decide (a.Number < b.Number)) (builtRecords r s idx entries) =
      builtRecords r s idx entries := by
  apply sortSlice_eq_self
  refine (builtRecords_pairwise r s entries idx).imp ?_
  intro a b hab
  simp only [decide_eq_false_iff_not, not_lt]
  omega

/-! ## What one call of `FillCache` does -/

/-- A call whose lineup request fails returns that error and leaves the client as it was. -/
theorem FillCache_lineup_error (r : Remote) (s : StirrClient) (lineup : List Channel) (e : Err)
    (h : GetChannels r s = (lineup, some e)) : FillCache r s = (s, some e) := by
  simp [FillCache, h]

/-- A call all of whose requests succeed caches the new lineup, one record per entry in
lineup order, the number of their programs, and the time. -/
theorem FillCache_all_ok (r : Remote) (s : StirrClient) (lineup : List Channel)
    (h : GetChannels r s = (lineup, none)) (hall : allFetched r s 0 lineup) :
    FillCache r s =
      ({ s with
          Lineup := lineup
          channels := builtRecords r s 0 lineup
          ProgramCount := programTotal (builtRecords r s 0 lineup)
          LastUpdate := r.now }, none) := by
  have hloop := fillLoop_append_ok r s [] lineup 0 0
    { s with Lineup := lineup, channels := [] } rfl hall
  simp only [List.append_nil, fillLoop, List.nil_append, zero_add] at hloop
  simp only [FillCache, h, hloop, sortSlice_builtRecords]

/-- A call in which the requests for the entries `pre` succeed and a request for the next
entry fails: the client is left with the new lineup and the records of `pre`; the returned
error is `nil` when it was the status request that failed, the guide error otherwise. -/
theorem FillCache_first_failure (r : Remote) (s : StirrClient) (pre post : List Channel)
    (channel : Channel) (h : GetChannels r s = (pre ++ channel :: post, none))
    (hall : allFetched r s 0 pre) (hfail : fetchFails r s pre.length channel = true) :
    FillCache r s =
      ({ s with Lineup := pre ++ channel :: post, channels := builtRecords r s 0 pre },
        if statusFails r s pre.length channel then none
        else (GetChannelPrograms r s pre.length channel.DisplayName).2) := by
  have hloop := fillLoop_append_ok r s (channel :: post) pre 0 0
    { s with Lineup := pre ++ channel :: post, channels := [] } rfl hall
  simp only [List.nil_append, zero_add] at hloop
  cases hst : statusFails r s pre.length channel with
  | true =>
    rw [fillLoop_cons_statusFails r s
      { s with Lineup := pre ++ channel :: post, channels := builtRecords r s 0 pre } rfl
      channel post pre.length _ hst] at hloop
    simp [FillCache, h, hloop]
  | false =>
    have hpf : programFails r s pre.length channel = true := by
      simpa [fetchFails, hst] using hfail
    rw [fillLoop_cons_programFails r s
      { s with Lineup := pre ++ channel :: post, channels := builtRecords r s 0 pre } rfl
      channel post pre.length _ hst hpf] at hloop
    simp [FillCache, h, hloop]

/-! ## Claims about the refresh -/

/-- C1, counterexample.  The cache holds three channels and six programs; the next refresh
gets the same lineup, and its first guide request fails.  `FillCache` returns the error, and
the cache is not what it was: the channel list is empty now. -/
theorem FillCache_failed_fetch_changes_cache :
    filledABC.channels.length = 3 ∧
    (FillCache (sampleRemote lineupABC [] [0] guideABC) filledABC).2
      = some "unexpected response 500" ∧
    (FillCache (sampleRemote lineupABC [] [0] guideABC) filledABC).1.channels = [] ∧
    ¬ FailedFetchKeepsCache (sampleRemote lineupABC [] [0] guideABC) filledABC := by
  refine ⟨by decide, by decide, by decide, ?_⟩
  intro h
  have h1 := h (by decide) ⟨(0, sampleChannel "alpha" "a1"), by decide, by decide⟩
  revert h1
  decide

/-- C1, amended.  When the lineup request succeeds, the requests for the entries `pre` succeed
and the guide request for the next entry fails, `FillCache` returns that error; the program
count, the time of the last update and the station are what they were before the call; the
lineup is the new one; the channel list is the records built for `pre`, in order. -/
theorem FillCache_guide_failure_cache (r : Remote) (s : StirrClient) (pre post : List Channel)
    (channel : Channel) (h : GetChannels r s = (pre ++ channel :: post, none))
    (hall : allFetched r s 0 pre) (hst : statusFails r s pre.length channel = false)
    (hpf : programFails r s pre.length channel = true) :
    (FillCache r s).2 = (GetChannelPrograms r s pre.length channel.DisplayName).2 ∧
    (FillCache r s).2 ≠ none ∧
    (FillCache r s).1.ProgramCount = s.ProgramCount ∧
    (FillCache r s).1.LastUpdate = s.LastUpdate ∧
    (FillCache r s).1.StationID = s.StationID ∧
    (FillCache r s).1.Lineup = pre ++ channel :: post ∧
    (FillCache r s).1.channels = builtRecords r s 0 pre ∧
    (FillCache r s).1.channels.length = pre.length := by
  have hfail : fetchFails r s pre.length channel = true := by simp [fetchFails, hpf]
  rw [FillCache_first_failure r s pre post channel h hall hfail]
  simp only [hst, Bool.false_eq_true, if_false, builtRecords_length, and_self, and_true,
    true_and, ne_eq]
  simp only [programFails] at hpf
  cases hq : (GetChannelPrograms r s pre.length channel.DisplayName).2 with
  | none => simp [hq] at hpf
  | some e => simp

/-- C1, witness: the lineup has three entries and the guide request for the second fails. -/
theorem FillCache_guide_failure_cache_witness :
    (FillCache (sampleRemote lineupABC [] [1] guideABC) filledABC).2 ≠ none ∧
    (FillCache (sampleRemote lineupABC [] [1] guideABC) filledABC).1.ProgramCount = 6 ∧
    (FillCache (sampleRemote lineupABC [] [1] guideABC) filledABC).1.channels.length = 1 := by
  have h := FillCache_guide_failure_cache (sampleRemote lineupABC [] [1] guideABC) filledABC
    [sampleChannel "alpha" "a1"] [sampleChannel "charlie" "c3"] (sampleChannel "bravo" "b2")
    (by decide) (by decide) (by decide) (by decide)
  exact ⟨h.2.1, h.2.2.1.trans (by decide), h.2.2.2.2.2.2.2⟩

/-- C2, the failing input evaluated.  The lineup has one entry and the status request for it
fails: `FillCache` returns `nil`. -/
theorem FillCache_status_failure_returns_nil :
    (GetChannels (sampleRemote [sampleChannel "alpha" "a1"] [0] [] guideABC)
      (StirrClient.new "")).2 = none ∧
    (GetChannel (sampleRemote [sampleChannel "alpha" "a1"] [0] [] guideABC)
      (StirrClient.new "") 0 "alpha").2 = some "unexpected response 500" ∧
    (FillCache (sampleRemote [sampleChannel "alpha" "a1"] [0] [] guideABC)
      (StirrClient.new "")).2 = none := by
  decide

/-- C3, the failing input evaluated.  The lineup has three entries and the status request for
the second fails: `FillCache` returns `nil` and the cache holds one record, not three. -/
theorem FillCache_nil_with_truncated_channels :
    (FillCache (sampleRemote lineupABC [1] [] guideABC) (StirrClient.new "")).2 = none ∧
    (FillCache (sampleRemote lineupABC [1] [] guideABC) (StirrClient.new "")).1.Lineup.length
      = 3 ∧
    (FillCache (sampleRemote lineupABC [1] [] guideABC) (StirrClient.new "")).1.channels.length
      = 1 := by
  decide

theorem fetchFails_congr (r : Remote) {s s0 : StirrClient} (h : s.StationID = s0.StationID)
    (n : Nat) (c : Channel) : fetchFails r s n c = fetchFails r s0 n c := by
  simp [fetchFails, statusFails, programFails, GetChannel_congr r h,
    GetChannelPrograms_congr r h]

theorem CleanCall_congr (r : Remote) {s s0 : StirrClient} (h : s.StationID = s0.StationID) :
    CleanCall r s0 → CleanCall r s := by
  intro hc
  simp only [CleanCall, allFetched, GetChannels_congr r h, fetchFails_congr r h]
  exact hc

/-- A clean call keeps the station and leaves the cache consistent. -/
theorem FillCache_clean (r : Remote) (s : StirrClient) (hc : CleanCall r s)
    (hs : Consistent s) :
    (FillCache r s).1.StationID = s.StationID ∧ Consistent (FillCache r s).1 := by
  rcases hg : GetChannels r s with ⟨lineup, err⟩
  cases err with
  | some e =>
    rw [FillCache_lineup_error r s lineup e hg]
    exact ⟨rfl, hs⟩
  | none =>
    have hall : allFetched r s 0 lineup := by
      rcases hc with hc | hc
      · simp [hg] at hc
      · simpa [hg] using hc
    rw [FillCache_all_ok r s lineup hg hall]
    simp [Consistent, index, builtRecords_length]

theorem fills_clean (station : String) :
    ∀ (rs : List Remote) (s : StirrClient), s.StationID = station → Consistent s →
      (∀ r ∈ rs, CleanCall r (StirrClient.new station)) → Consistent (fills rs s) := by
  intro rs
  induction rs with
  | nil => intro s _ hs _; exact hs
  | cons r rs ih =>
    intro s hid hs hclean
    have hc : CleanCall r s :=
      CleanCall_congr r (by simpa [StirrClient.new] using hid) (hclean r (by simp))
    have hstep := FillCache_clean r s hc hs
    have := ih (FillCache r s).1 (hstep.1.trans hid) hstep.2
      (fun r' hr' => hclean r' (by simp [hr']))
    simpa [fills] using this

/-- C4, counterexample.  The first refresh of an empty cache gets three lineup entries and
its second guide request fails: the call returns the error and leaves three lineup entries
beside one cached record. -/
theorem fills_inconsistent_after_failed_call :
    (FillCache (sampleRemote lineupABC [] [1] guideABC) (StirrClient.new "")).2 ≠ none ∧
    index (fills [sampleRemote lineupABC [] [1] guideABC] (StirrClient.new "")) = (3, 0) ∧
    (fills [sampleRemote lineupABC [] [1] guideABC] (StirrClient.new "")).channels.length
      = 1 ∧
    ¬ Consistent (fills [sampleRemote lineupABC [] [1] guideABC] (StirrClient.new "")) := by
  decide

/-- C4, amended.  Starting from the empty cache, after every sequence of `FillCache` calls
each of which either fails at the lineup request or has all its requests succeed, the
program count equals the number of programs attached to the cached records and the channel
count reported from the lineup equals the number of cached records. -/
theorem fills_consistent (station : String) (rs : List Remote)
    (h : ∀ r ∈ rs, CleanCall r (StirrClient.new station)) :
    Consistent (fills rs (StirrClient.new station)) :=
  fills_clean station rs (StirrClient.new station) rfl
    (by simp [Consistent, index, StirrClient.new, programTotal]) h

/-- C4, witness: a refresh of three channels with two programs each, then a refresh whose
lineup request fails, leave three channels and a program count of six. -/
theorem fills_consistent_witness :
    Consistent (fills [sampleRemote lineupABC [] [] guideABC, downRemote]
      (StirrClient.new "")) ∧
    index (fills [sampleRemote lineupABC [] [] guideABC, downRemote] (StirrClient.new ""))
      = (3, 6) ∧
    (fills [sampleRemote lineupABC [] [] guideABC, downRemote]
      (StirrClient.new "")).channels.length = 3 :=
  ⟨fills_consistent "" [sampleRemote lineupABC [] [] guideABC, downRemote] (by decide),
    by decide, by decide⟩

/-! ## The guide document -/

theorem epg_inner (ps : List Program) :
    ∀ e : XmltvTV,
      ps.foldl (fun epg program =>
          { epg with Programmes := epg.Programmes ++ [Program.XMLTV program] }) e =
        { e with Programmes := e.Programmes ++ ps.map Program.XMLTV } := by
  induction ps with
  | nil => intro e; simp
  | cons q ps ih => intro e; simp [List.foldl, ih]

theorem epg_outer (cs : List ChannelStatus) :
    ∀ e : XmltvTV,
      cs.foldl (fun epg channel =>
          let epg := { epg with Channels := epg.Channels ++ [ChannelStatus.XMLTV channel] }
          channel.Programs.foldl (fun epg program =>
            { epg with Programmes := epg.Programmes ++ [Program.XMLTV program] }) epg) e =
        { e with
          Channels := e.Channels ++ cs.map ChannelStatus.XMLTV
          Programmes :=
            e.Programmes ++ (cs.map (fun c => c.Programs.map Program.XMLTV)).flatten } := by
  induction cs with
  | nil => intro e; simp
  | cons c cs ih =>
    intro e
    simp only [List.foldl_cons, epg_inner] at ih ⊢
    rw [ih]
    simp

/-- The guide has one channel element per cached record and one programme element per
attached program, in cache order. -/
theorem epg_eq (client : StirrClient) :
    epg client =
      { GeneratorInfoName := "stirr-for-channels"
        GeneratorInfoURL := "https://github.com/robbiet480/stirr-for-channels"
        Channels := client.channels.map ChannelStatus.XMLTV
        Programmes := (client.channels.map (fun c => c.Programs.map Program.XMLTV)).flatten } := by
  simp [epg, epg_outer]

/-- C5, counterexample.  Every request of the refresh succeeds, and the guide responses name
channel `zz9`, which is not in the lineup: the programme elements refer to `stirr-zz9`, the
records that own them are `stirr-a1`, `stirr-b2` and `stirr-c3`. -/
theorem FillCache_foreign_programme_reference :
    allFetched (sampleRemote lineupABC [] [] guideForeign) (StirrClient.new "") 0 lineupABC ∧
    (FillCache (sampleRemote lineupABC [] [] guideForeign) (StirrClient.new "")).2 = none ∧
    ((FillCache (sampleRemote lineupABC [] [] guideForeign) (StirrClient.new "")).1.channels.map
      (fun c => (c.ID, c.Programs.map (fun q => (Program.XMLTV q).Channel))))
      = [("stirr-a1", ["stirr-zz9"]), ("stirr-b2", ["stirr-zz9"]), ("stirr-c3", ["stirr-zz9"])] ∧
    ¬ ProgramsReferToOwner
      (FillCache (sampleRemote lineupABC [] [] guideForeign) (StirrClient.new "")).1 := by
  decide

/-- C5, amended.  After a `FillCache` all of whose requests succeed, and whose guide
responses list for every lineup entry only programs carrying that entry's source identifier
in their channel field, every program attached to a cached record refers to that record: the
reference `Program.XMLTV` produces equals the record's derived identifier, and every
programme element of the guide refers to a channel element of the same guide. -/
theorem FillCache_programme_reference (r : Remote) (s : StirrClient) (lineup : List Channel)
    (h : GetChannels r s = (lineup, none)) (hall : allFetched r s 0 lineup)
    (hguide : GuideMatchesLineup r s lineup) :
    ProgramsReferToOwner (FillCache r s).1 ∧
    ∀ pg ∈ (epg (FillCache r s).1).Programmes,
      ∃ ch ∈ (epg (FillCache r s).1).Channels, pg.Channel = ch.ID := by
  have hown : ProgramsReferToOwner (FillCache r s).1 := by
    rw [FillCache_all_ok r s lineup h hall]
    intro c hc q hq
    simp only [builtRecords, List.mem_map] at hc
    obtain ⟨p, hp, rfl⟩ := hc
    simp only [builtRecord] at hq ⊢
    simp only [Program.XMLTV, hguide p hp q hq]
  refine ⟨hown, ?_⟩
  intro pg hpg
  rw [epg_eq] at hpg ⊢
  simp only [List.mem_flatten, List.mem_map, exists_exists_and_eq_and] at hpg ⊢
  obtain ⟨c, hc, q, hq, rfl⟩ := hpg
  exact ⟨c, hc, hown c hc q hq⟩

/-- C5, witness: the refresh of three channels whose guide names each channel itself. -/
theorem FillCache_programme_reference_witness :
    ProgramsReferToOwner filledABC ∧
    (epg filledABC).Programmes.length = 6 ∧ (epg filledABC).Channels.length = 3 :=
  ⟨(FillCache_programme_reference (sampleRemote lineupABC [] [] guideABC) (StirrClient.new "")
      lineupABC (by decide) (by decide) (by decide)).1, by decide, by decide⟩

/-! ## The scheduler -/

theorem ticks_exited (rs : List Remote) (status : Nat) :
    ticks rs (.exited status) = .exited status := by
  induction rs with
  | nil => rfl
  | cons r rs ih => simpa [ticks, onTick] using ih

/-- C8, counterexample.  The process has started and serves three channels; at the next tick
the last guide request fails, `FillCache` returns the error, and the process exits with
status 1 instead of running on with its cache. -/
theorem onTick_failed_refresh_exits :
    startup (sampleRemote lineupABC [] [] guideABC) "seattle" = .running servingABC ∧
    (FillCache (sampleRemote lineupABC [] [2] guideABC) servingABC).2 ≠ none ∧
    onTick (sampleRemote lineupABC [] [2] guideABC) (.running servingABC) = .exited 1 ∧
    ¬ FailedTickKeepsRunning (sampleRemote lineupABC [] [2] guideABC) servingABC := by
  refine ⟨by decide, by decide, by decide, ?_⟩
  intro h
  have h1 := h (by decide)
  revert h1
  decide

/-- C8, amended.  A tick whose `FillCache` returns an error terminates the process with exit
status 1, as a failure of the initial refresh does, and no later tick runs a refresh; a tick
whose `FillCache` returns `nil` leaves the process running with the cache that call left. -/
theorem onTick_outcome (r : Remote) (client : StirrClient) (later : List Remote) :
    ((FillCache r client).2 ≠ none →
      onTick r (.running client) = .exited 1 ∧
      ticks (r :: later) (.running client) = .exited 1 ∧
      (∀ env, NewStirrClient r env = .returned (some client, none) →
        startup r env = .exited 1)) ∧
    ((FillCache r client).2 = none →
      onTick r (.running client) = .running (FillCache r client).1) := by
  rcases hf : FillCache r client with ⟨c, err⟩
  cases err with
  | none => simp [onTick, hf]
  | some e =>
    have h1 : onTick r (.running client) = .exited 1 := by simp [onTick, hf]
    refine ⟨fun _ => ⟨h1, ?_, ?_⟩, by simp⟩
    · simp only [ticks, List.foldl] at h1 ⊢
      rw [h1]
      exact ticks_exited later 1
    · intro env henv
      simp [startup, henv, hf]

/-- C8, witness: a failing tick followed by another tick, and a succeeding tick. -/
theorem onTick_outcome_witness :
    ticks [sampleRemote lineupABC [] [2] guideABC, sampleRemote lineupABC [] [] guideABC]
      (.running servingABC) = .exited 1 ∧
    onTick (sampleRemote lineupABC [] [] guideABC) (.running servingABC)
      = .running (FillCache (sampleRemote lineupABC [] [] guideABC) servingABC).1 :=
  ⟨((onTick_outcome (sampleRemote lineupABC [] [2] guideABC) servingABC
      [sampleRemote lineupABC [] [] guideABC]).1 (by decide)).2.1,
    (onTick_outcome (sampleRemote lineupABC [] [] guideABC) servingABC []).2 (by decide)⟩

/-! ## Station auto-detection -/

/-- C10, the failing input evaluated.  The auto-detection request fails before a body is
decoded, so the decoded value has no page: `GetStation` panics on `Page[0]` instead of
returning the error, `NewStirrClient` never reaches its error branch, and the process ends
with the panic. -/
theorem GetStation_panics_on_failed_request :
    (downRemote.stationAutoSelection "").1.Page = [] ∧
    (downRemote.stationAutoSelection "").2 = some "connection refused" ∧
    GetStation downRemote (StirrClient.new "")
      = .panicked "index out of range [0] with length 0" ∧
    NewStirrClient downRemote "" = .panicked "index out of range [0] with length 0" ∧
    startup downRemote "" = .exited 2 := by
  decide

/-! ## The playlist -/

theorem linesOf_append_newline (a b : List Char) (h : '\n' ∉ a) :
    linesOf (a ++ '\n' :: b) = a :: linesOf b := by
  induction a with
  | nil => simp [linesOf]
  | cons c a ih =>
    simp only [List.mem_cons, not_or] at h
    have hc : c ≠ '\n' := fun e => h.1 e.symm
    simp [linesOf, hc, ih h.2]

theorem linesOf_of_not_mem (a : List Char) (h : '\n' ∉ a) : linesOf a = [a] := by
  induction a with
  | nil => simp [linesOf]
  | cons c a ih =>
    simp only [List.mem_cons, not_or] at h
    have hc : c ≠ '\n' := fun e => h.1 e.symm
    simp [linesOf, hc, ih h.2]

theorem removeNewlines_append (a b : String) :
    removeNewlines (a ++ b) = removeNewlines a ++ removeNewlines b := by
  apply String.ext
  simp [removeNewlines]

theorem removeNewlines_noLineBreak (a : String) : NoLineBreak (removeNewlines a) := by
  simp [NoLineBreak, removeNewlines, List.mem_filter]

theorem NoLineBreak_append {a b : String} (ha : NoLineBreak a) (hb : NoLineBreak b) :
    NoLineBreak (a ++ b) := by
  simp only [NoLineBreak, String.data_append, List.mem_append, not_or] at *
  exact ⟨ha, hb⟩

/-- The stanza of a channel is its header line, a line feed, and its playback link. -/
theorem M3ULine_eq (c : ChannelStatus) :
    c.M3ULine = headerLine c ++ "\n" ++ c.Rss.Channel.Item.Link := by
  have e1 : removeNewlines "#EXTINF:0" = "#EXTINF:0" := by decide
  have e2 : removeNewlines " " = " " := by decide
  have e3 : removeNewlines "channel-id=\"" = "channel-id=\"" := by decide
  have e4 : removeNewlines "\"" = "\"" := by decide
  have e5 : removeNewlines "tvg-logo=\"" = "tvg-logo=\"" := by decide
  have e6 : removeNewlines "tvg-name=\"" = "tvg-name=\"" := by decide
  simp only [ChannelStatus.M3ULine, Join, headerLine, removeNewlines_append, e1, e2, e3, e4,
    e5, e6]
  apply String.ext
  simp [String.data_append, List.append_assoc]

theorem headerLine_noLineBreak (c : ChannelStatus) (h : NoLineBreak c.Rss.Channel.Title) :
    NoLineBreak (headerLine c) := by
  unfold headerLine
  refine NoLineBreak_append (NoLineBreak_append (NoLineBreak_append (NoLineBreak_append
    (NoLineBreak_append (NoLineBreak_append (NoLineBreak_append ?_ ?_) ?_) ?_) ?_) ?_) ?_) h
  all_goals first
    | exact removeNewlines_noLineBreak _
    | decide

/-- The lines of the joined stanzas, followed by a line feed and more text. -/
theorem linesOf_Join_M3ULine (tail : List Char) :
    ∀ cs : List ChannelStatus,
      (∀ c ∈ cs, NoLineBreak c.Rss.Channel.Title ∧ NoLineBreak c.Rss.Channel.Item.Link) →
      linesOf ((Join (cs.map ChannelStatus.M3ULine) "\n\n").data ++ '\n' :: tail) =
        (stanzaLines cs).map String.data ++ linesOf tail := by
  intro cs
  induction cs with
  | nil => intro _; simp [Join, stanzaLines, linesOf]
  | cons c cs ih =>
    intro h
    have hc := h c (by simp)
    have hh : '\n' ∉ (headerLine c).data := headerLine_noLineBreak c hc.1
    have hl : '\n' ∉ c.Rss.Channel.Item.Link.data := hc.2
    cases cs with
    | nil =>
      simp only [List.map_cons, List.map_nil, Join, stanzaLines, M3ULine_eq,
        String.data_append, List.append_assoc]
      rw [List.singleton_append, linesOf_append_newline _ _ hh,
        linesOf_append_newline _ _ hl]
      rfl
    | cons c1 rest =>
      have ih1 := ih (fun x hx => h x (by simp [hx]))
      simp only [List.map_cons, Join, stanzaLines, M3ULine_eq, String.data_append,
        List.append_assoc] at ih1 ⊢
      rw [List.singleton_append, linesOf_append_newline _ _ hh]
      simp only [List.cons_append, List.nil_append]
      rw [linesOf_append_newline _ _ hl]
      simp only [linesOf, if_true]
      rw [ih1]

/-- C7, counterexample.  The cache holds one record whose playback link contains a line
feed: its stanza takes three lines, so the body is not the header, two lines per channel and
the end of the last line. -/
theorem playlist_stanza_of_three_lines :
    textLines (playlist brokenLinkClient) =
      ["#EXTM3U", "#EXTINF:0 channel-id=\"stirr-a1\" tvg-logo=\"\" tvg-name=\"Alpha\", Alpha",
        "http://example.test/a", "b", ""] ∧
    ¬ PlaylistShape brokenLinkClient := by
  decide

/-- C7, amended.  For every cache of N channel records whose titles and playback links
contain no line feed, the playlist body is the line `#EXTM3U` followed by N stanzas in cache
order, consecutive stanzas separated by one empty line; each stanza is two lines, the header
line (`#EXTINF:0`, then the derived identifier, the logo URL and the title as attributes with
line feeds removed, then a comma and the title) and the playback link. -/
theorem playlist_shape (client : StirrClient)
    (h : ∀ c ∈ client.channels,
      NoLineBreak c.Rss.Channel.Title ∧ NoLineBreak c.Rss.Channel.Item.Link) :
    PlaylistShape client := by
  unfold PlaylistShape textLines playlist
  have hm : '\n' ∉ ("#EXTM3U" : String).data := by decide
  have key : ∀ rest : List Char, linesOf (("#EXTM3U\n" : String).data ++ rest)
      = ("#EXTM3U" : String).data :: linesOf rest :=
    fun rest => linesOf_append_newline ("#EXTM3U" : String).data rest hm
  have e1 : ("\n" : String).data = ['\n'] := rfl
  rw [String.data_append, String.data_append, List.append_assoc, key, e1,
    linesOf_Join_M3ULine [] client.channels h]
  simp [linesOf, Function.comp_def]

set_option maxRecDepth 100000 in
/-- C7, witness: the cache of three channels served after start-up. -/
theorem playlist_shape_witness :
    PlaylistShape servingABC ∧ (textLines (playlist servingABC)).length = 10 :=
  ⟨playlist_shape servingABC (by decide), by decide⟩

/-! ## Timestamps -/

theorem digitVal_le {c : Char} (h : isDigitChar c = true) : digitVal c ≤ 9 := by
  simp only [isDigitChar, decide_eq_true_eq] at h
  have h0 : '0'.toNat = 48 := by decide
  have h9 : '9'.toNat = 57 := by decide
  simp only [digitVal, h0]
  omega

theorem ofNat_digitVal {c : Char} (h : isDigitChar c = true) :
    Char.ofNat ('0'.toNat + digitVal c) = c := by
  simp only [isDigitChar, decide_eq_true_eq] at h
  have h0 : '0'.toNat = 48 := by decide
  have e : '0'.toNat + digitVal c = c.toNat := by
    simp only [digitVal, h0]
    omega
  rw [e, Char.ofNat_toNat]

theorem decimal_two (fuel : Nat) (a b : Nat) (ha : a ≤ 9) (hb : b ≤ 9) :
    List.replicate (2 - (decimal (fuel + 2) (a * 10 + b)).length) '0'
        ++ decimal (fuel + 2) (a * 10 + b)
      = [Char.ofNat ('0'.toNat + a), Char.ofNat ('0'.toNat + b)] := by
  by_cases h0 : a = 0
  · subst h0
    have : b < 10 := by omega
    simp [decimal, this]
  · have h1 : ¬ (a * 10 + b < 10) := by omega
    have h2 : (a * 10 + b) / 10 = a := by omega
    have h3 : (a * 10 + b) % 10 = b := by omega
    have h4 : a < 10 := by omega
    simp [decimal, h1, h2, h3, h4]

theorem decimal_step (fuel q r w : Nat) (hf : 1 ≤ fuel) (hr : r ≤ 9) (hq : 1 ≤ w ∨ 1 ≤ q) :
    List.replicate (w + 1 - (decimal (fuel + 1) (q * 10 + r)).length) '0'
        ++ decimal (fuel + 1) (q * 10 + r)
      = (List.replicate (w - (decimal fuel q).length) '0' ++ decimal fuel q)
        ++ [Char.ofNat ('0'.toNat + r)] := by
  by_cases h0 : q = 0
  · subst h0
    have hw : 1 ≤ w := by omega
    obtain ⟨f, rfl⟩ : ∃ f, fuel = f + 1 := ⟨fuel - 1, by omega⟩
    obtain ⟨v, rfl⟩ : ∃ v, w = v + 1 := ⟨w - 1, by omega⟩
    have : r < 10 := by omega
    simp only [decimal, zero_mul, zero_add, this, if_true, List.length_singleton,
      Nat.add_sub_cancel, Nat.lt_irrefl, Nat.zero_lt_succ, add_zero]
    have e : Char.ofNat '0'.toNat = '0' := by decide
    rw [e, List.replicate_succ']
  · have h1 : ¬ (q * 10 + r < 10) := by omega
    have h2 : (q * 10 + r) / 10 = q := by omega
    have h3 : (q * 10 + r) % 10 = r := by omega
    simp only [decimal, h1, if_false, h2, h3, List.length_append, List.length_singleton,
      Nat.add_sub_add_right, List.append_assoc]

theorem appendInt_two (b : List Char) (c0 c1 : Char) (h0 : isDigitChar c0 = true)
    (h1 : isDigitChar c1 = true) :
    appendInt b ((digitVal c0 * 10 + digitVal c1 : Nat) : Int) 2 = b ++ [c0, c1] := by
  have e := decimal_two 18 (digitVal c0) (digitVal c1) (digitVal_le h0) (digitVal_le h1)
  rw [ofNat_digitVal h0, ofNat_digitVal h1] at e
  have hneg : ¬ (((digitVal c0 * 10 + digitVal c1 : Nat) : Int) < 0) := by omega
  simp only [appendInt, hneg, if_false, Int.natAbs_ofNat, List.append_assoc]
  rw [e]

theorem appendInt_four (b : List Char) (c0 c1 c2 c3 : Char) (h0 : isDigitChar c0 = true)
    (h1 : isDigitChar c1 = true) (h2 : isDigitChar c2 = true) (h3 : isDigitChar c3 = true) :
    appendInt b
        ((((digitVal c0 * 10 + digitVal c1) * 10 + digitVal c2) * 10 + digitVal c3 : Nat) : Int)
        4
      = b ++ [c0, c1, c2, c3] := by
  have e2 := decimal_two 16 (digitVal c0) (digitVal c1) (digitVal_le h0) (digitVal_le h1)
  have e3 := decimal_step 18 (digitVal c0 * 10 + digitVal c1) (digitVal c2) 2 (by omega)
    (digitVal_le h2) (Or.inl (by omega))
  have e4 := decimal_step 19 ((digitVal c0 * 10 + digitVal c1) * 10 + digitVal c2)
    (digitVal c3) 3 (by omega) (digitVal_le h3) (Or.inl (by omega))
  rw [e2] at e3
  rw [e3] at e4
  rw [ofNat_digitVal h0, ofNat_digitVal h1, ofNat_digitVal h2, ofNat_digitVal h3] at e4
  have hneg : ¬ (((((digitVal c0 * 10 + digitVal c1) * 10 + digitVal c2) * 10
      + digitVal c3 : Nat) : Int) < 0) := by omega
  simp only [appendInt, hneg, if_false, Int.natAbs_ofNat, List.append_assoc]
  rw [e4]
  rfl

theorem exists_fourteen (cs : List Char) (h : cs.length = 14) :
    ∃ c0 c1 c2 c3 c4 c5 c6 c7 c8 c9 c10 c11 c12 c13,
      cs = [c0, c1, c2, c3, c4, c5, c6, c7, c8, c9, c10, c11, c12, c13] := by
  rcases cs with _ | ⟨c0, cs⟩
  · simp at h
  rcases cs with _ | ⟨c1, cs⟩
  · simp at h
  rcases cs with _ | ⟨c2, cs⟩
  · simp at h
  rcases cs with _ | ⟨c3, cs⟩
  · simp at h
  rcases cs with _ | ⟨c4, cs⟩
  · simp at h
  rcases cs with _ | ⟨c5, cs⟩
  · simp at h
  rcases cs with _ | ⟨c6, cs⟩
  · simp at h
  rcases cs with _ | ⟨c7, cs⟩
  · simp at h
  rcases cs with _ | ⟨c8, cs⟩
  · simp at h
  rcases cs with _ | ⟨c9, cs⟩
  · simp at h
  rcases cs with _ | ⟨c10, cs⟩
  · simp at h
  rcases cs with _ | ⟨c11, cs⟩
  · simp at h
  rcases cs with _ | ⟨c12, cs⟩
  · simp at h
  rcases cs with _ | ⟨c13, cs⟩
  · simp at h
  rcases cs with _ | ⟨c14, cs⟩
  · exact ⟨c0, c1, c2, c3, c4, c5, c6, c7, c8, c9, c10, c11, c12, c13, rfl⟩
  · simp only [List.length_cons] at h
    omega

theorem not_sign_of_digit {c : Char} (h : isDigitChar c = true) : ¬ (c = '-' ∨ c = '+') := by
  rintro (rfl | rfl) <;> revert h <;> decide

theorem leadingInt_not_digit (c : Char) (rest : List Char) (x : Nat)
    (h : ¬ isDigitChar c = true) : leadingInt (c :: rest) x = some (x, c :: rest) := by
  simp [leadingInt, h]

theorem leadingInt_digit (c : Char) (rest : List Char) (x : Nat) (h : isDigitChar c = true)
    (hx : x < 10 ^ 9) : leadingInt (c :: rest) x = leadingInt rest (x * 10 + digitVal c) := by
  have b := digitVal_le h
  have g1 : ¬ (x > 2 ^ 63 / 10) := by norm_num at hx ⊢; omega
  have g2 : ¬ (x * 10 + digitVal c > 2 ^ 63) := by norm_num at hx ⊢; omega
  rw [leadingInt]
  simp only [h, Bool.not_true, Bool.false_eq_true, if_false, g1, g2]

theorem atoi_of_digit (c : Char) (rest : List Char) (h : isDigitChar c = true) :
    atoi (c :: rest) =
      match leadingInt rest (digitVal c) with
      | none => none
      | some (q, rem) => if rem.length > 0 then none else some (q : Int) := by
  have e := leadingInt_digit c rest 0 h (by norm_num)
  rw [zero_mul, zero_add] at e
  simp only [atoi, not_sign_of_digit h, if_false, e, Bool.false_eq_true]

theorem atoi_four (c0 c1 c2 c3 : Char) (h0 : isDigitChar c0 = true)
    (h1 : isDigitChar c1 = true) (h2 : isDigitChar c2 = true) (h3 : isDigitChar c3 = true) :
    atoi [c0, c1, c2, c3] =
      some ((((digitVal c0 * 10 + digitVal c1) * 10 + digitVal c2) * 10 + digitVal c3 : Nat)
        : Int) := by
  have b0 := digitVal_le h0
  have b1 := digitVal_le h1
  have b2 := digitVal_le h2
  rw [atoi_of_digit c0 _ h0, leadingInt_digit c1 _ _ h1 (by norm_num; omega),
    leadingInt_digit c2 _ _ h2 (by norm_num; omega),
    leadingInt_digit c3 _ _ h3 (by norm_num; omega)]
  simp [leadingInt]

theorem getnum_two (c0 c1 : Char) (rest : List Char) (fixed : Bool)
    (h0 : isDigitChar c0 = true) (h1 : isDigitChar c1 = true) :
    getnum (c0 :: c1 :: rest) fixed = some (digitVal c0 * 10 + digitVal c1, rest) := by
  simp [getnum, h0, h1]

/-- A valid stamp parses to the instant it denotes. -/
theorem Parse_stamp (cs : List Char) (h : ValidStamp cs) : Parse cs = .ok (stampTime cs) := by
  obtain ⟨hlen, hdig, hm1, hm2, hd1, hd2, hh, hmi, hs⟩ := h
  obtain ⟨c0, c1, c2, c3, c4, c5, c6, c7, c8, c9, c10, c11, c12, c13, rfl⟩ :=
    exists_fourteen cs hlen
  have d0 : isDigitChar c0 = true := hdig c0 (by simp)
  have d1 : isDigitChar c1 = true := hdig c1 (by simp)
  have d2 : isDigitChar c2 = true := hdig c2 (by simp)
  have d3 : isDigitChar c3 = true := hdig c3 (by simp)
  have d4 : isDigitChar c4 = true := hdig c4 (by simp)
  have d5 : isDigitChar c5 = true := hdig c5 (by simp)
  have d6 : isDigitChar c6 = true := hdig c6 (by simp)
  have d7 : isDigitChar c7 = true := hdig c7 (by simp)
  have d8 : isDigitChar c8 = true := hdig c8 (by simp)
  have d9 : isDigitChar c9 = true := hdig c9 (by simp)
  have d10 : isDigitChar c10 = true := hdig c10 (by simp)
  have d11 : isDigitChar c11 = true := hdig c11 (by simp)
  have d12 : isDigitChar c12 = true := hdig c12 (by simp)
  have d13 : isDigitChar c13 = true := hdig c13 (by simp)
  simp only [stampTime, digitsValue, List.take, List.drop, List.foldl, zero_mul, zero_add]
    at hm1 hm2 hd1 hd2 hh hmi hs ⊢
  have e1 : ¬ (digitVal c4 * 10 + digitVal c5 ≤ 0 ∨ 12 < digitVal c4 * 10 + digitVal c5) := by
    omega
  have e2 : ¬ (24 ≤ digitVal c8 * 10 + digitVal c9) := by omega
  have e3 : ¬ (60 ≤ digitVal c10 * 10 + digitVal c11) := by omega
  have e4 : ¬ (60 ≤ digitVal c12 * 10 + digitVal c13) := by omega
  have e5 : ¬ (digitVal c6 * 10 + digitVal c7 < 1 ∨
      digitVal c6 * 10 + digitVal c7 > daysIn (digitVal c4 * 10 + digitVal c5)
        ((((digitVal c0 * 10 + digitVal c1) * 10 + digitVal c2) * 10 + digitVal c3 : Nat)
          : Int)) := by
    omega
  have e0 : ¬ (([c0, c1, c2, c3, c4, c5, c6, c7, c8, c9, c10, c11, c12, c13].length < 4) ∨
      (!isDigit [c0, c1, c2, c3, c4, c5, c6, c7, c8, c9, c10, c11, c12, c13] 0) = true) := by
    simp [isDigit, d0]
  simp only [Parse, e0, if_false, List.take, List.drop, atoi_four c0 c1 c2 c3 d0 d1 d2 d3,
    getnum_two _ _ _ _ d4 d5, getnum_two _ _ _ _ d6 d7, getnum_two _ _ _ _ d8 d9,
    getnum_two _ _ _ _ d10 d11, getnum_two _ _ _ _ d12 d13, e1, e2, e3, e4, e5,
    List.length_nil, ne_eq, not_true_eq_false, Date]

/-- The instant fourteen digits denote is formatted as those digits. -/
theorem Format_stamp (cs : List Char) (hlen : cs.length = 14)
    (hdig : ∀ c ∈ cs, isDigitChar c = true) : Format (stampTime cs) = cs := by
  obtain ⟨c0, c1, c2, c3, c4, c5, c6, c7, c8, c9, c10, c11, c12, c13, rfl⟩ :=
    exists_fourteen cs hlen
  have d0 : isDigitChar c0 = true := hdig c0 (by simp)
  have d1 : isDigitChar c1 = true := hdig c1 (by simp)
  have d2 : isDigitChar c2 = true := hdig c2 (by simp)
  have d3 : isDigitChar c3 = true := hdig c3 (by simp)
  have d4 : isDigitChar c4 = true := hdig c4 (by simp)
  have d5 : isDigitChar c5 = true := hdig c5 (by simp)
  have d6 : isDigitChar c6 = true := hdig c6 (by simp)
  have d7 : isDigitChar c7 = true := hdig c7 (by simp)
  have d8 : isDigitChar c8 = true := hdig c8 (by simp)
  have d9 : isDigitChar c9 = true := hdig c9 (by simp)
  have d10 : isDigitChar c10 = true := hdig c10 (by simp)
  have d11 : isDigitChar c11 = true := hdig c11 (by simp)
  have d12 : isDigitChar c12 = true := hdig c12 (by simp)
  have d13 : isDigitChar c13 = true := hdig c13 (by simp)
  simp only [Format, stampTime, digitsValue, List.take, List.drop, List.foldl, zero_mul,
    zero_add]
  rw [appendInt_four [] c0 c1 c2 c3 d0 d1 d2 d3, appendInt_two _ c4 c5 d4 d5,
    appendInt_two _ c6 c7 d6 d7, appendInt_two _ c8 c9 d8 d9, appendInt_two _ c10 c11 d10 d11,
    appendInt_two _ c12 c13 d12 d13]
  rfl

theorem dropWhile_replicate_append (p : Char → Bool) (q : Char) (hq : p q = true) (n : Nat)
    (l : List Char) : (List.replicate n q ++ l).dropWhile p = l.dropWhile p := by
  induction n with
  | zero => rfl
  | succ n ih => simp [List.replicate_succ, hq, ih]

/-- Quote characters around a text that neither starts nor ends with one are all removed. -/
theorem trimQuotes_wrapped (a b : Nat) (cs : List Char) (hne : cs ≠ [])
    (hhead : cs.head? ≠ some '"') (hlast : cs.getLast? ≠ some '"') :
    trimQuotes (List.replicate a '"' ++ cs ++ List.replicate b '"') = cs := by
  have hp : (fun c : Char => decide (c = '"')) '"' = true := by simp
  obtain ⟨x, xs, rfl⟩ := List.exists_cons_of_ne_nil hne
  have hx : x ≠ '"' := by simpa using hhead
  have hfront : (List.replicate a '"' ++ (x :: xs) ++ List.replicate b '"').dropWhile
      (fun c => decide (c = '"')) = x :: xs ++ List.replicate b '"' := by
    rw [List.append_assoc, dropWhile_replicate_append _ _ hp]
    simp [hx]
  unfold trimQuotes
  rw [hfront, List.reverse_append, List.reverse_replicate, dropWhile_replicate_append _ _ hp]
  obtain ⟨ys, y, hy⟩ : ∃ ys y, x :: xs = ys ++ [y] :=
    ⟨(x :: xs).dropLast, (x :: xs).getLast (by simp), (List.dropLast_append_getLast _).symm⟩
  rw [hy] at hlast ⊢
  have hyq : y ≠ '"' := by simpa using hlast
  simp [hyq]

theorem getnum_fixed_some (s rest : List Char) (n : Nat)
    (h : getnum s true = some (n, rest)) :
    ∃ a b, s = a :: b :: rest ∧ isDigitChar a = true ∧ isDigitChar b = true ∧
      n = digitVal a * 10 + digitVal b := by
  rcases s with _ | ⟨a, _ | ⟨b, tl⟩⟩
  · simp [getnum] at h
  · by_cases ha : isDigitChar a = true <;> simp [getnum, ha] at h
  · by_cases ha : isDigitChar a = true
    · by_cases hb : isDigitChar b = true
      · simp only [getnum, ha, hb, Bool.not_true, Bool.false_eq_true, if_false,
          Option.some.injEq, Prod.mk.injEq] at h
        exact ⟨a, b, by rw [h.2], ha, hb, h.1.symm⟩
      · simp [getnum, ha, hb] at h
    · simp [getnum, ha] at h

theorem getnum_free_some (s rest : List Char) (n : Nat)
    (h : getnum s false = some (n, rest)) :
    (∃ a b, s = a :: b :: rest ∧ isDigitChar a = true ∧ isDigitChar b = true ∧
      n = digitVal a * 10 + digitVal b) ∨ isDigit rest 0 = false := by
  rcases s with _ | ⟨a, _ | ⟨b, tl⟩⟩
  · simp [getnum] at h
  · by_cases ha : isDigitChar a = true
    · simp only [getnum, ha, Bool.not_true, Bool.false_eq_true, if_false, Option.some.injEq,
        Prod.mk.injEq] at h
      right
      rw [← h.2]
      rfl
    · simp [getnum, ha] at h
  · by_cases ha : isDigitChar a = true
    · by_cases hb : isDigitChar b = true
      · simp only [getnum, ha, hb, Bool.not_true, Bool.false_eq_true, if_false,
          Option.some.injEq, Prod.mk.injEq] at h
        exact Or.inl ⟨a, b, by rw [h.2], ha, hb, h.1.symm⟩
      · simp only [getnum, ha, hb, Bool.not_true, Bool.not_false, Bool.false_eq_true,
          if_false, if_true, Option.some.injEq, Prod.mk.injEq] at h
        right
        rw [← h.2]
        simpa [isDigit] using hb
    · simp [getnum, ha] at h

theorem getnum_none_of_not_digit (s : List Char) (fixed : Bool) (h : isDigit s 0 = false) :
    getnum s fixed = none := by
  rcases s with _ | ⟨a, tl⟩
  · rfl
  · have ha : isDigitChar a = false := by simpa [isDigit] using h
    simp [getnum, ha]

theorem atoi_take_four (v : List Char) (y : Int) (hlen : ¬ v.length < 4)
    (h0 : isDigit v 0 = true) (h : atoi (v.take 4) = some y) :
    ∃ c0 c1 c2 c3 rest, v = c0 :: c1 :: c2 :: c3 :: rest ∧ isDigitChar c0 = true ∧
      isDigitChar c1 = true ∧ isDigitChar c2 = true ∧ isDigitChar c3 = true ∧
      y = ((((digitVal c0 * 10 + digitVal c1) * 10 + digitVal c2) * 10 + digitVal c3 : Nat)
        : Int) := by
  rcases v with _ | ⟨c0, _ | ⟨c1, _ | ⟨c2, _ | ⟨c3, rest⟩⟩⟩⟩
  · simp at hlen
  · simp at hlen
  · simp at hlen
  · simp at hlen
  · have d0 : isDigitChar c0 = true := by simpa [isDigit] using h0
    have b0 := digitVal_le d0
    rw [List.take, List.take, List.take, List.take, List.take, atoi_of_digit c0 _ d0] at h
    by_cases d1 : isDigitChar c1 = true
    · have b1 := digitVal_le d1
      rw [leadingInt_digit c1 _ _ d1 (by norm_num; omega)] at h
      by_cases d2 : isDigitChar c2 = true
      · have b2 := digitVal_le d2
        rw [leadingInt_digit c2 _ _ d2 (by norm_num; omega)] at h
        by_cases d3 : isDigitChar c3 = true
        · rw [leadingInt_digit c3 _ _ d3 (by norm_num; omega)] at h
          simp only [leadingInt, List.length_nil, gt_iff_lt, Nat.lt_irrefl, if_false,
            Option.some.injEq] at h
          exact ⟨c0, c1, c2, c3, rest, rfl, d0, d1, d2, d3, h.symm⟩
        · rw [leadingInt_not_digit c3 _ _ d3] at h
          simp at h
      · rw [leadingInt_not_digit c2 _ _ d2] at h
        simp at h
    · rw [leadingInt_not_digit c1 _ _ d1] at h
      simp at h

theorem all_of_drop_takeWhile (p : Char → Bool) (l : List Char)
    (h : (l.drop (l.takeWhile p).length).length = 0) : ∀ x ∈ l, p x = true := by
  have hle : l.length ≤ (l.takeWhile p).length := by
    rw [List.length_drop] at h
    omega
  have hpre : l.takeWhile p <+: l := List.takeWhile_prefix p
  have heq : l.takeWhile p = l := hpre.eq_of_length_le hle
  exact List.takeWhile_eq_self_iff.mp heq

theorem Parse_ok_shape (v : List Char) (t : Time) (h : Parse v = .ok t) :
    StampWithFraction v := by
  unfold Parse at h
  split at h
  · cases h
  rename_i h0
  rw [not_or] at h0
  obtain ⟨hlen, hd0⟩ := h0
  simp only [Bool.not_eq_true, Bool.not_eq_false'] at hd0
  split at h
  · cases h
  rename_i year hyear
  obtain ⟨c0, c1, c2, c3, v4, rfl, d0, d1, d2, d3, rfl⟩ := atoi_take_four v year hlen hd0 hyear
  split at h
  · cases h
  rename_i month v6 hmonth
  simp only [List.drop] at hmonth
  obtain ⟨c4, c5, rfl, d4, d5, rfl⟩ := getnum_fixed_some _ _ _ hmonth
  split at h
  · cases h
  rename_i hm
  split at h
  · cases h
  rename_i day v8 hday
  obtain ⟨c6, c7, rfl, d6, d7, rfl⟩ := getnum_fixed_some _ _ _ hday
  split at h
  · cases h
  rename_i hour v10 hhour
  split at h
  · cases h
  rename_i hh
  split at h
  · cases h
  rename_i min v12 hmin
  rcases getnum_free_some _ _ _ hhour with ⟨c8, c9, rfl, d8, d9, rfl⟩ | hnd
  swap
  · rw [getnum_none_of_not_digit _ _ hnd] at hmin
    cases hmin
  obtain ⟨c10, c11, rfl, d10, d11, rfl⟩ := getnum_fixed_some _ _ _ hmin
  split at h
  · cases h
  rename_i hmi
  split at h
  · cases h
  rename_i sec v14 hsec
  obtain ⟨c12, c13, rfl, d12, d13, rfl⟩ := getnum_fixed_some _ _ _ hsec
  split at h
  · cases h
  rename_i hs
  simp only at h
  split at h
  · cases h
  rename_i nsec rest hfrac
  split at h
  · cases h
  rename_i hrest
  split at h
  · cases h
  rename_i hdayok
  have hvalid : ValidStamp [c0, c1, c2, c3, c4, c5, c6, c7, c8, c9, c10, c11, c12, c13] := by
    refine ⟨rfl, ?_, ?_⟩
    · intro c hc
      simp only [List.mem_cons, List.mem_singleton, List.not_mem_nil, or_false] at hc
      rcases hc with rfl | rfl | rfl | rfl | rfl | rfl | rfl | rfl | rfl | rfl | rfl | rfl |
        rfl | rfl <;> assumption
    · simp only [stampTime, digitsValue, List.take, List.drop, List.foldl, zero_mul, zero_add]
      omega
  refine ⟨by simpa [List.take] using hvalid, ?_⟩
  simp only [List.drop]
  simp only [ne_eq, Decidable.not_not] at hrest
  rcases v14 with _ | ⟨c, _ | ⟨d, tl⟩⟩
  · rfl
  · simp only [Option.some.injEq, Prod.mk.injEq] at hfrac
    rw [← hfrac.2] at hrest
    simp at hrest
  · simp only at hfrac
    split at hfrac
    · rename_i hsep
      split at hfrac
      · cases hfrac
      · simp only [Option.some.injEq, Prod.mk.injEq] at hfrac
        rw [← hfrac.2] at hrest
        have hall := all_of_drop_takeWhile isDigitChar tl (by
          simp only [List.drop_succ_cons, List.drop_zero, List.length_drop,
            List.length_cons] at hrest ⊢
          omega)
        have hd : isDigitChar d = true := by simpa [isDigit] using hsep.2
        simp only [isFraction, hsep.1, List.isEmpty_cons, Bool.not_false, Bool.and_self,
          List.all_cons, hd, Bool.true_and, List.all_eq_true]
        exact hall
    · simp only [Option.some.injEq, Prod.mk.injEq] at hfrac
      rw [← hfrac.2] at hrest
      simp at hrest

theorem leadingInt_digits :
    ∀ (ds : List Char) (x k : Nat), (∀ d ∈ ds, isDigitChar d = true) → ds.length + k ≤ 9 →
      x < 10 ^ k →
      leadingInt ds x = some (ds.foldl (fun n c => n * 10 + digitVal c) x, []) := by
  intro ds
  induction ds with
  | nil => intro x k _ _ _; rfl
  | cons d ds ih =>
    intro x k hd hlen hx
    have hdd : isDigitChar d = true := hd d (by simp)
    have b := digitVal_le hdd
    simp only [List.length_cons] at hlen
    have hk : (10 : Nat) ^ k ≤ 10 ^ 9 := Nat.pow_le_pow_right (by norm_num) (by omega)
    rw [leadingInt_digit d ds x hdd (by omega), List.foldl_cons]
    apply ih (x * 10 + digitVal d) (k + 1) (fun c hc => hd c (by simp [hc])) (by omega)
    rw [pow_succ]
    omega

/-- A run of one to nine digits is read by `atoi` as the number it denotes. -/
theorem atoi_digits (ds : List Char) (hne : ds ≠ []) (hd : ∀ d ∈ ds, isDigitChar d = true)
    (hlen : ds.length ≤ 9) : atoi ds = some (digitsValue ds : Int) := by
  obtain ⟨c, cs, rfl⟩ := List.exists_cons_of_ne_nil hne
  have hc : isDigitChar c = true := hd c (by simp)
  simp only [List.length_cons] at hlen
  have hq := leadingInt_digits cs (digitVal c) 1 (fun x hx => hd x (by simp [hx])) (by omega)
    (by have := digitVal_le hc; omega)
  rw [atoi_of_digit c cs hc, hq]
  simp [digitsValue]

/-- The fraction read by `parseNanoseconds` is the one the suffix denotes. -/
theorem parseNanoseconds_fraction (sep d : Char) (tl : List Char)
    (hsep : commaOrPeriod sep = true) (hd : isDigitChar d = true)
    (htl : ∀ c ∈ tl, isDigitChar c = true) :
    parseNanoseconds (sep :: d :: tl) (2 + tl.length)
      = some (fractionNanos (sep :: d :: tl)) := by
  have hdig : ∀ c ∈ (d :: tl).take 9, isDigitChar c = true := by
    intro c hc
    rcases List.mem_cons.mp (List.mem_of_mem_take hc) with rfl | h
    · exact hd
    · exact htl c h
  have hne : (d :: tl).take 9 ≠ [] := by simp
  have hlen : ((d :: tl).take 9).length ≤ 9 := by
    rw [List.length_take]
    omega
  have hatoi := atoi_digits _ hne hdig hlen
  have hnn : ¬ ((digitsValue ((d :: tl).take 9) : Int) < 0) := by omega
  by_cases hn : 2 + tl.length > 10
  · have e1 : ((List.take 10 (sep :: d :: tl)).drop 1).take (10 - 1) = (d :: tl).take 9 := by
      simp [List.take_take]
    have e2 : ((d :: tl).take 9).length = 9 := by
      rw [List.length_take, List.length_cons]
      omega
    simp only [parseNanoseconds, hsep, Bool.not_true, Bool.false_eq_true, if_false, hn,
      if_true, e1, hatoi, hnn, fractionNanos, e2, Int.toNat_ofNat, Nat.sub_self]
  · have e0 : 2 + tl.length - 1 = (d :: tl).length := by
      simp only [List.length_cons]
      omega
    have e3 : (d :: tl).take 9 = d :: tl := List.take_of_length_le (by
      simp only [List.length_cons]
      omega)
    have e1 : ((sep :: d :: tl).drop 1).take (2 + tl.length - 1) = (d :: tl).take 9 := by
      rw [e0, e3]
      simp
    have e2 : 10 - (2 + tl.length) = 9 - ((d :: tl).take 9).length := by
      rw [e3, List.length_cons]
      omega
    simp only [parseNanoseconds, hsep, Bool.not_true, Bool.false_eq_true, if_false, hn, e1,
      hatoi, hnn, fractionNanos, e2, Int.toNat_ofNat]

/-- A valid stamp followed by a fractional-second suffix parses to the instant of the stamp,
with some nanosecond. -/
theorem Parse_stamp_fraction (cs : List Char) (sep d : Char) (tl : List Char)
    (h : ValidStamp cs) (hsep : commaOrPeriod sep = true) (hd : isDigitChar d = true)
    (htl : ∀ c ∈ tl, isDigitChar c = true) :
    Parse (cs ++ sep :: d :: tl)
      = .ok { stampTime cs with nsec := fractionNanos (sep :: d :: tl) } := by
  obtain ⟨hlen, hdig, hm1, hm2, hd1, hd2, hh, hmi, hs⟩ := h
  obtain ⟨c0, c1, c2, c3, c4, c5, c6, c7, c8, c9, c10, c11, c12, c13, rfl⟩ :=
    exists_fourteen cs hlen
  have d0 : isDigitChar c0 = true := hdig c0 (by simp)
  have d1 : isDigitChar c1 = true := hdig c1 (by simp)
  have d2 : isDigitChar c2 = true := hdig c2 (by simp)
  have d3 : isDigitChar c3 = true := hdig c3 (by simp)
  have d4 : isDigitChar c4 = true := hdig c4 (by simp)
  have d5 : isDigitChar c5 = true := hdig c5 (by simp)
  have d6 : isDigitChar c6 = true := hdig c6 (by simp)
  have d7 : isDigitChar c7 = true := hdig c7 (by simp)
  have d8 : isDigitChar c8 = true := hdig c8 (by simp)
  have d9 : isDigitChar c9 = true := hdig c9 (by simp)
  have d10 : isDigitChar c10 = true := hdig c10 (by simp)
  have d11 : isDigitChar c11 = true := hdig c11 (by simp)
  have d12 : isDigitChar c12 = true := hdig c12 (by simp)
  have d13 : isDigitChar c13 = true := hdig c13 (by simp)
  simp only [stampTime, digitsValue, List.take, List.drop, List.foldl, zero_mul, zero_add]
    at hm1 hm2 hd1 hd2 hh hmi hs ⊢
  have e1 : ¬ (digitVal c4 * 10 + digitVal c5 ≤ 0 ∨ 12 < digitVal c4 * 10 + digitVal c5) := by
    omega
  have e2 : ¬ (24 ≤ digitVal c8 * 10 + digitVal c9) := by omega
  have e3 : ¬ (60 ≤ digitVal c10 * 10 + digitVal c11) := by omega
  have e4 : ¬ (60 ≤ digitVal c12 * 10 + digitVal c13) := by omega
  have e5 : ¬ (digitVal c6 * 10 + digitVal c7 < 1 ∨
      digitVal c6 * 10 + digitVal c7 > daysIn (digitVal c4 * 10 + digitVal c5)
        ((((digitVal c0 * 10 + digitVal c1) * 10 + digitVal c2) * 10 + digitVal c3 : Nat)
          : Int)) := by
    omega
  simp only [List.cons_append, List.nil_append]
  have e0 : ¬ ((c0 :: c1 :: c2 :: c3 :: c4 :: c5 :: c6 :: c7 :: c8 :: c9 :: c10 :: c11 :: c12
      :: c13 :: sep :: d :: tl).length < 4 ∨
      (!isDigit (c0 :: c1 :: c2 :: c3 :: c4 :: c5 :: c6 :: c7 :: c8 :: c9 :: c10 :: c11 :: c12
        :: c13 :: sep :: d :: tl) 0) = true) := by
    simp [isDigit, d0]
  have e6 : commaOrPeriod sep = true ∧ isDigit (sep :: d :: tl) 1 = true := by
    simp [hsep, isDigit, hd]
  have e7 : List.takeWhile isDigitChar tl = tl := List.takeWhile_eq_self_iff.mpr htl
  have hn := parseNanoseconds_fraction sep d tl hsep hd htl
  simp only [Parse, e0, if_false, List.take, List.drop,
    atoi_four c0 c1 c2 c3 d0 d1 d2 d3,
    getnum_two _ _ _ _ d4 d5, getnum_two _ _ _ _ d6 d7, getnum_two _ _ _ _ d8 d9,
    getnum_two _ _ _ _ d10 d11, getnum_two _ _ _ _ d12 d13, e1, e2, e3, e4, e5, e6, e7, hn,
    and_self, if_true, List.drop_length, List.length_nil, ne_eq, not_true_eq_false, Date]
  have e8 : (List.drop (2 + tl.length) (sep :: d :: tl)).length = 0 := by
    simp only [List.length_drop, List.length_cons]
    omega
  simp only [e8, not_true_eq_false, if_false]

/-- A valid stamp, with or without a fractional-second suffix, parses to the instant of the
stamp plus the fraction. -/
theorem Parse_of_shape (v : List Char) (h : StampWithFraction v) :
    Parse v = .ok { stampTime (v.take 14) with nsec := fractionNanos (v.drop 14) } := by
  obtain ⟨hv, hf⟩ := h
  have hsplit : v.take 14 ++ v.drop 14 = v := List.take_append_drop 14 v
  rcases hrest : v.drop 14 with _ | ⟨sep, _ | ⟨d, tl⟩⟩
  · rw [hrest, List.append_nil] at hsplit
    have e : Parse v = .ok (stampTime (v.take 14)) := by
      rw [hsplit]
      rw [hsplit] at hv
      exact Parse_stamp v hv
    rw [e]
    rfl
  · rw [hrest] at hf
    simp [isFraction] at hf
  · rw [hrest] at hf hsplit
    simp only [isFraction, List.isEmpty_cons, Bool.not_false, Bool.and_true, List.all_cons,
      Bool.and_eq_true, List.all_eq_true] at hf
    have hn := Parse_stamp_fraction (v.take 14) sep d tl hv hf.1 hf.2.1 hf.2.2
    rw [hsplit] at hn
    exact hn

theorem Format_nsec (t : Time) (nsec : Nat) : Format { t with nsec := nsec } = Format t := rfl

/-- C6, counterexample.  `20210422030000.5` is not in the layout, yet `UnmarshalJSON`
accepts it (package `time` reads a fractional second after the seconds although the layout
has none) and changes the receiver; marshalling the result gives `20210422030000`. -/
theorem UnmarshalJSON_accepts_fraction :
    ¬ ValidStamp (trimQuotes "20210422030000.5".data) ∧
    StirrTime.UnmarshalJSON ⟨Time.zero⟩ "20210422030000.5"
      = (⟨⟨2021, 4, 22, 3, 0, 0, 500000000⟩⟩, none) ∧
    StirrTime.MarshalJSON ⟨⟨2021, 4, 22, 3, 0, 0, 500000000⟩⟩ = ("20210422030000", none) ∧
    ¬ RejectsUnlessStamp ⟨Time.zero⟩ "20210422030000.5" := by
  refine ⟨by decide, by decide, by decide, ?_⟩
  intro h
  have h1 := (h (by decide)).1
  revert h1
  decide

/-- C6, amended.  For every fourteen-digit string `s` in the layout YYYYMMDDHHMMSS that
denotes a valid calendar date and time, `UnmarshalJSON` on `s` with any number of quote
characters before and after it succeeds with the UTC instant having those fields, and
`MarshalJSON` of the result yields exactly `s`.  A string `b` is accepted exactly when, with
the quote characters at its ends removed, it is such a stamp optionally followed by a
fractional second (a period or comma and one or more digits); the result then is the instant
of the stamp plus that fraction (its first nine decimal places, as nanoseconds), and it
marshals to the stamp without the fraction.  Every other string is rejected with an error and
leaves the receiver unchanged. -/
theorem StirrTime_codec (t : StirrTime) (s : String) (a c : Nat) (b : String) :
    (ValidStamp s.data →
      StirrTime.UnmarshalJSON t
          (String.mk (List.replicate a '"' ++ s.data ++ List.replicate c '"'))
        = (⟨stampTime s.data⟩, none) ∧
      StirrTime.MarshalJSON ⟨stampTime s.data⟩ = (s, none)) ∧
    (StampWithFraction (trimQuotes b.data) →
      (StirrTime.UnmarshalJSON t b).2 = none ∧
      (StirrTime.UnmarshalJSON t b).1
        = ⟨{ stampTime ((trimQuotes b.data).take 14) with
              nsec := fractionNanos ((trimQuotes b.data).drop 14) }⟩ ∧
      StirrTime.MarshalJSON (StirrTime.UnmarshalJSON t b).1
        = (String.mk ((trimQuotes b.data).take 14), none)) ∧
    (¬ StampWithFraction (trimQuotes b.data) →
      (StirrTime.UnmarshalJSON t b).2 ≠ none ∧ (StirrTime.UnmarshalJSON t b).1 = t) := by
  refine ⟨?_, ?_, ?_⟩
  · intro hv
    obtain ⟨c0, c1, c2, c3, c4, c5, c6, c7, c8, c9, c10, c11, c12, c13, hs⟩ :=
      exists_fourteen s.data hv.1
    have hq : ∀ x ∈ s.data, x ≠ '"' := by
      intro x hx e
      have := hv.2.1 x hx
      rw [e] at this
      revert this
      decide
    have htrim : trimQuotes (List.replicate a '"' ++ s.data ++ List.replicate c '"')
        = s.data := by
      apply trimQuotes_wrapped
      · rw [hs]; simp
      · rw [hs]
        have := hq c0 (by rw [hs]; simp)
        simpa using this
      · rw [hs]
        have := hq c13 (by rw [hs]; simp)
        simpa using this
    constructor
    · simp only [StirrTime.UnmarshalJSON, htrim, Parse_stamp s.data hv]
    · simp only [StirrTime.MarshalJSON, Format_stamp s.data hv.1 hv.2.1]
  · intro hshape
    have hn := Parse_of_shape _ hshape
    have hu : StirrTime.UnmarshalJSON t b
        = (⟨{ stampTime ((trimQuotes b.data).take 14) with
              nsec := fractionNanos ((trimQuotes b.data).drop 14) }⟩, none) := by
      simp only [StirrTime.UnmarshalJSON, hn]
    rw [hu]
    refine ⟨rfl, rfl, ?_⟩
    show (String.mk (Format { stampTime ((trimQuotes b.data).take 14) with
      nsec := fractionNanos ((trimQuotes b.data).drop 14) }), (none : Option Err)) = _
    rw [Format_nsec, Format_stamp _ hshape.1.1 hshape.1.2.1]
  · intro hshape
    cases hp : Parse (trimQuotes b.data) with
    | ok parsed => exact absurd (Parse_ok_shape _ parsed hp) hshape
    | error err => simp [StirrTime.UnmarshalJSON, hp]

/-- C6, witness: `20210422030000` in quotes parses to 2021-04-22 03:00:00 UTC and marshals
to `20210422030000`; a stamp with the fraction `,25` is accepted as that instant plus a
quarter of a second, and of a fraction of thirteen digits the first nine count; an RFC 3339
string is rejected and leaves the receiver as it was. -/
theorem StirrTime_codec_witness :
    stampTime "20210422030000".data = ⟨2021, 4, 22, 3, 0, 0, 0⟩ ∧
    StirrTime.UnmarshalJSON ⟨Time.zero⟩
        (String.mk (List.replicate 1 '"' ++ "20210422030000".data ++ List.replicate 1 '"'))
      = (⟨stampTime "20210422030000".data⟩, none) ∧
    StirrTime.MarshalJSON ⟨stampTime "20210422030000".data⟩ = ("20210422030000", none) ∧
    (StirrTime.UnmarshalJSON ⟨Time.zero⟩ "20210422030000,25").2 = none ∧
    (StirrTime.UnmarshalJSON ⟨Time.zero⟩ "20210422030000,25").1
      = ⟨⟨2021, 4, 22, 3, 0, 0, 250000000⟩⟩ ∧
    (StirrTime.UnmarshalJSON ⟨Time.zero⟩ "\"20210422030000.1234567891234\"").1
      = ⟨⟨2021, 4, 22, 3, 0, 0, 123456789⟩⟩ ∧
    (StirrTime.UnmarshalJSON ⟨Time.zero⟩ "2021-04-22T03:00:00Z").2 ≠ none ∧
    (StirrTime.UnmarshalJSON ⟨Time.zero⟩ "2021-04-22T03:00:00Z").1 = ⟨Time.zero⟩ :=
  ⟨by decide,
    ((StirrTime_codec ⟨Time.zero⟩ "20210422030000" 1 1 "").1 (by decide)).1,
    ((StirrTime_codec ⟨Time.zero⟩ "20210422030000" 1 1 "").1 (by decide)).2,
    ((StirrTime_codec ⟨Time.zero⟩ "" 0 0 "20210422030000,25").2.1 (by decide)).1,
    ((StirrTime_codec ⟨Time.zero⟩ "" 0 0 "20210422030000,25").2.1 (by decide)).2.1.trans
      (by decide),
    ((StirrTime_codec ⟨Time.zero⟩ "" 0 0 "\"20210422030000.1234567891234\"").2.1
      (by decide)).2.1.trans (by decide),
    ((StirrTime_codec ⟨Time.zero⟩ "" 0 0 "2021-04-22T03:00:00Z").2.2 (by decide)).1,
    ((StirrTime_codec ⟨Time.zero⟩ "" 0 0 "2021-04-22T03:00:00Z").2.2 (by decide)).2⟩

end Stirr
